import Mathlib

/-
Verification development for the Monte Carlo forecast pipeline
(Monte Carlo/mc_pipeline.py).  Real-valued quantities are modelled by ℝ;
every call to the pseudo-random generator is abstracted as an explicit
input (a standard-normal draw z, or a uniform draw u in [0,1]), so each
function below is the denotation of the corresponding Python function on
a fixed random stream.  Per-test configuration dictionaries are modelled
as functions on test names, and name-to-index maps by first-occurrence
lookup; configurations with duplicate names in tests_order or in the
correlation test list are outside the scope of this development.
-/

set_option maxHeartbeats 1000000
set_option linter.unusedVariables false

/-- Embedding of lognormal_sigma_from_cv: sqrt(ln(1 + cv*cv)). -/
noncomputable def lognormal_sigma_from_cv (cv : ℝ) : ℝ :=
  Real.sqrt (Real.log (1.0 + cv * cv))

/-- Embedding of the inner apply_segment closure of apply_decline.  The
captured flags use_absolute and higher_is_better become arguments.
For the relative branch, factor ** (years_segment/10) is Real.rpow. -/
noncomputable def apply_segment (use_absolute higher_is_better : Bool)
    (rate val years_segment : ℝ) : ℝ :=
  if years_segment ≤ 0 then val
  else if use_absolute then
    if higher_is_better then val - rate * (years_segment / 10)
    else val + rate * (years_segment / 10)
  else
    val * ((if higher_is_better then (if 0 ≤ val then 1 - rate else 1 + rate)
            else (if 0 ≤ val then 1 + rate else 1 - rate)) ^ (years_segment / 10))

/-- Embedding of the years1/years2 split computed at the top of
apply_decline from the start age, the horizon and the acceleration age. -/
noncomputable def decline_split (age_start years : ℝ) : Option ℝ → ℝ × ℝ
  | none => (years, 0)
  | some accel_age =>
    if age_start < accel_age then
      (min years (accel_age - age_start), years - min years (accel_age - age_start))
    else (0, years)

/-- Embedding of apply_decline.  The Python guards `if years1 > 0` and
`if years2 > 0` are dropped because apply_segment already returns its
input unchanged on a non-positive segment length, which is equivalent. -/
noncomputable def apply_decline (value age_start years rate_base : ℝ)
    (rate_post accel_age : Option ℝ) (higher_is_better use_absolute : Bool) : ℝ :=
  if years ≤ 0 then value
  else
    apply_segment use_absolute higher_is_better (rate_post.getD rate_base)
      (apply_segment use_absolute higher_is_better rate_base value
        (decline_split age_start years accel_age).1)
      (decline_split age_start years accel_age).2

/-- Embedding of apply_measurement_noise; z is the standard-normal draw,
so random.gauss(0, sigma) becomes sigma * z. -/
noncomputable def apply_measurement_noise (test : String) (true_val : ℝ)
    (measurement_cv : String → ℝ) (measurement_lognormal allow_negative_tests : List String)
    (z : ℝ) : ℝ :=
  if test ∈ measurement_lognormal then
    if true_val ≤ 0 then 0
    else true_val * Real.exp (lognormal_sigma_from_cv (measurement_cv test) * z)
  else
    if test ∉ allow_negative_tests ∧ true_val + |true_val| * measurement_cv test * z < 0 then 0
    else true_val + |true_val| * measurement_cv test * z

/-- Embedding of infer_true_from_observed; z is the standard-normal draw. -/
noncomputable def infer_true_from_observed (test : String) (obs_val : ℝ)
    (measurement_cv : String → ℝ) (measurement_lognormal allow_negative_tests : List String)
    (z : ℝ) : ℝ :=
  if test ∈ measurement_lognormal then
    if obs_val ≤ 0 then 0
    else obs_val / Real.exp (lognormal_sigma_from_cv (measurement_cv test) * z)
  else
    if test ∉ allow_negative_tests ∧ obs_val - |obs_val| * measurement_cv test * z < 0 then 0
    else obs_val - |obs_val| * measurement_cv test * z

/-- Embedding of sample_rate.  The optional z mirrors the Python default
argument: when none, the function draws its own independent standard
normal, which is the z_fallback input here. -/
noncomputable def sample_rate (test : String) (mu cv : ℝ) (is_lognormal : Bool)
    (z : Option ℝ) (z_fallback : ℝ) : ℝ :=
  if is_lognormal then
    Real.exp (Real.log mu + lognormal_sigma_from_cv cv * (z.getD z_fallback))
  else
    if mu + |mu| * cv * (z.getD z_fallback) < 0 then 0
    else mu + |mu| * cv * (z.getD z_fallback)

/-- Configuration block for the HOMA-IR improvement model; minv and maxv
mirror homa_cfg.get('min', 0.0) and homa_cfg.get('max', 1.0). -/
structure HomaCfg where
  q10 : ℝ
  q90 : ℝ
  median : ℝ
  minv : Option ℝ
  maxv : Option ℝ

/-- Embedding of sample_homa_reduction with explicit normal draw z. -/
noncomputable def sample_homa_reduction (h : HomaCfg) (z : ℝ) : ℝ :=
  max (h.minv.getD 0) (min (h.maxv.getD 1)
    (Real.exp (Real.log h.median +
      ((Real.log h.q90 - Real.log h.q10) / (1.2815515655446004 - -1.2815515655446004)) * z)))

/-- Embedding of random.uniform(lo, hi) on a uniform [0,1] draw u. -/
def uniform_draw (lo hi u : ℝ) : ℝ := lo + (hi - lo) * u

/-- Improvement configuration (cfg['improvement']). -/
structure ImproveCfg where
  vo2_age_cutoff : ℝ
  vo2_under : ℝ × ℝ
  vo2_over : ℝ × ℝ
  homa_ir_reduction : HomaCfg
  ranges : String → Option (ℝ × ℝ)

/-- Embedding of sample_improvement_fraction; u is the uniform draw used
by the range branches, z the normal draw used by the HOMA-IR branch. -/
noncomputable def sample_improvement_fraction (test : String) (age : Option ℝ)
    (ic : ImproveCfg) (u z : ℝ) : ℝ :=
  if test = "VO2 max" then
    (match age with
     | none => uniform_draw ic.vo2_under.1 ic.vo2_under.2 u
     | some a =>
       if a < ic.vo2_age_cutoff then uniform_draw ic.vo2_under.1 ic.vo2_under.2 u
       else uniform_draw ic.vo2_over.1 ic.vo2_over.2 u)
  else if test = "HOMA-IR" then sample_homa_reduction ic.homa_ir_reduction z
  else
    match ic.ranges test with
    | none => 0
    | some rng => uniform_draw rng.1 rng.2 u

/-- Practice-effect configuration (cfg['practice_effect']).  The year is
optional, mirroring practice_cfg.get('year'). -/
structure PracticeCfg where
  enabled : Bool
  year : Option ℕ
  tests : List String
  percent : ℝ

/-- Configuration record carrying the cfg dictionary fields read by
simulate_client.  Per-test dictionaries become functions on test names;
dictionaries accessed with .get become Option-valued. -/
structure Config where
  tests_order : List String
  higher_is_better : List String
  lower_is_better : List String
  cognitive_tests : List String
  absolute_decline_tests : List String
  allow_negative_tests_opt : Option (List String)
  base_rate_per_decade : String → ℝ
  post_rate_per_decade : String → Option ℝ
  accelerate_from_age : String → Option ℝ
  rate_uncertainty_cv : String → ℝ
  rate_lognormal : List String
  measurement_cv : String → ℝ
  measurement_lognormal : List String
  improvement : ImproveCfg
  practice_effect : PracticeCfg
  n_sim : ℕ

/-- Embedding of cfg.get('allow_negative_tests', cognitive + Sit and Reach). -/
def Config.allow_negative_tests (c : Config) : List String :=
  c.allow_negative_tests_opt.getD (c.cognitive_tests ++ ["Sit and Reach"])

/-- Client record: nullable age and a partial map from test name to the
observed baseline, as produced by read_input_clients. -/
structure Client where
  age : Option ℝ
  data : String → Option ℝ

/-- Random stream for one simulation draw: g is the iid standard-normal
vector mixed by the Cholesky factor; the remaining fields are the
standard-normal / uniform draws consumed at each call site, indexed by
horizon year and test where the source draws inside the years loop. -/
structure Draw where
  g : ℕ → ℝ
  z_rate : String → ℝ
  z_infer : String → ℝ
  z_noise : ℕ → String → ℝ
  u_imp : ℕ → String → ℝ
  z_imp : ℕ → String → ℝ

/-- Embedding of sample_correlated_z: component i of L times the draw
vector, summing L[i][k]*g[k] for k ≤ i. -/
noncomputable def sample_correlated_z (L : ℕ → ℕ → ℝ) (g : ℕ → ℝ) (i : ℕ) : ℝ :=
  ∑ k in Finset.range (i + 1), L i k * g k

/-- Embedding of z_map.get(test): the correlated shock of a test that
appears in the correlation test list, none otherwise. -/
noncomputable def z_map_lookup (corr_tests : List String) (L : ℕ → ℕ → ℝ)
    (g : ℕ → ℝ) (t : String) : Option ℝ :=
  (corr_tests.indexOf? t).map (fun i => sample_correlated_z L g i)

/-- Embedding of the rate[test] assignment in simulate_client. -/
noncomputable def sampled_rate (cfg : Config) (corr_tests : List String)
    (corr_L : ℕ → ℕ → ℝ) (d : Draw) (t : String) : ℝ :=
  sample_rate t (cfg.base_rate_per_decade t) (cfg.rate_uncertainty_cv t)
    (decide (t ∈ cfg.rate_lognormal)) (z_map_lookup corr_tests corr_L d.g t) (d.z_rate t)

/-- Embedding of the rate_post[test] assignment in simulate_client:
post_mu * (r / mu) if mu > 0 else post_mu, none when no post rate. -/
noncomputable def sampled_rate_post (cfg : Config) (corr_tests : List String)
    (corr_L : ℕ → ℕ → ℝ) (d : Draw) (t : String) : Option ℝ :=
  match cfg.post_rate_per_decade t with
  | none => none
  | some post_mu =>
    some (if 0 < cfg.base_rate_per_decade t then
            post_mu * (sampled_rate cfg corr_tests corr_L d t / cfg.base_rate_per_decade t)
          else post_mu)

/-- Embedding of the true0[test] assignment: data.get(test, 0.0) fed to
infer_true_from_observed. -/
noncomputable def true0 (cfg : Config) (client : Client) (d : Draw) (t : String) : ℝ :=
  infer_true_from_observed t ((client.data t).getD 0) cfg.measurement_cv
    cfg.measurement_lognormal cfg.allow_negative_tests (d.z_infer t)

/-- Condition guarding the practice-effect bump in simulate_client. -/
def practice_applies (cfg : Config) (years : ℕ) (t : String) : Prop :=
  cfg.practice_effect.enabled = true ∧ cfg.practice_effect.year = some years ∧
    t ∈ cfg.practice_effect.tests

instance (cfg : Config) (years : ℕ) (t : String) : Decidable (practice_applies cfg years t) := by
  unfold practice_applies; infer_instance

/-- Embedding of the practice-effect block of simulate_client. -/
noncomputable def practice_adjust (cfg : Config) (years : ℕ) (t : String) (val : ℝ) : ℝ :=
  if practice_applies cfg years t then
    if t ∈ cfg.absolute_decline_tests then val + cfg.practice_effect.percent
    else if 0 ≤ val then val * (1 + cfg.practice_effect.percent)
    else val * (1 - cfg.practice_effect.percent)
  else val

/-- Embedding of the improvement-scenario adjustment block applied to the
de-noised value before aging. -/
noncomputable def improve_adjust (cfg : Config) (t : String) (imp val : ℝ) : ℝ :=
  if t ∈ cfg.absolute_decline_tests then
    (if t ∈ cfg.lower_is_better then val - imp else val + imp)
  else
    if t ∈ cfg.lower_is_better then
      (if 0 ≤ val then val * (1 - imp) else val * (1 + imp))
    else
      (if 0 ≤ val then val * (1 + imp) else val * (1 - imp))

/-- Scenario selector passed to simulate_client. -/
inductive Scenario where
  | decline
  | improvement

/-- Value of one test at one horizon for one draw just before the final
re-noising step, following the years loop body of simulate_client. -/
noncomputable def pre_noise_val (cfg : Config) (client : Client) (corr_tests : List String)
    (corr_L : ℕ → ℕ → ℝ) (scenario : Scenario) (d : Draw) (years : ℕ) (t : String) : ℝ :=
  practice_adjust cfg years t
    (match scenario with
     | .improvement =>
       apply_decline
         (improve_adjust cfg t
           (sample_improvement_fraction t client.age cfg.improvement (d.u_imp years t) (d.z_imp years t))
           (true0 cfg client d t))
         (client.age.getD 0 + 1) ((years : ℝ) - 1)
         (sampled_rate cfg corr_tests corr_L d t) (sampled_rate_post cfg corr_tests corr_L d t)
         (cfg.accelerate_from_age t) (decide (t ∈ cfg.higher_is_better))
         (decide (t ∈ cfg.absolute_decline_tests))
     | .decline =>
       apply_decline (true0 cfg client d t) (client.age.getD 0) (years : ℝ)
         (sampled_rate cfg corr_tests corr_L d t) (sampled_rate_post cfg corr_tests corr_L d t)
         (cfg.accelerate_from_age t) (decide (t ∈ cfg.higher_is_better))
         (decide (t ∈ cfg.absolute_decline_tests)))

/-- Simulated observation accumulated into sums: the pre-noise value fed
through apply_measurement_noise. -/
noncomputable def simulated_obs (cfg : Config) (client : Client) (corr_tests : List String)
    (corr_L : ℕ → ℕ → ℝ) (scenario : Scenario) (d : Draw) (years : ℕ) (t : String) : ℝ :=
  apply_measurement_noise t (pre_noise_val cfg client corr_tests corr_L scenario d years t)
    cfg.measurement_cv cfg.measurement_lognormal cfg.allow_negative_tests (d.z_noise years t)

/-- Mean over the n_sim draws for one horizon and test: the sums dict of
simulate_client divided by n_sim.  The stream draws i is the random
state consumed by draw number i. -/
noncomputable def sim_mean (cfg : Config) (client : Client) (corr_tests : List String)
    (corr_L : ℕ → ℕ → ℝ) (scenario : Scenario) (draws : ℕ → Draw) (years : ℕ) (t : String) : ℝ :=
  (∑ i in Finset.range cfg.n_sim,
      simulated_obs cfg client corr_tests corr_L scenario (draws i) years t) / (cfg.n_sim : ℝ)

/-- Embedding of simulate_client: the pair (mean5, mean10). -/
noncomputable def simulate_client (cfg : Config) (client : Client) (corr_tests : List String)
    (corr_L : ℕ → ℕ → ℝ) (scenario : Scenario) (draws : ℕ → Draw) :
    (String → ℝ) × (String → ℝ) :=
  (sim_mean cfg client corr_tests corr_L scenario draws 5,
   sim_mean cfg client corr_tests corr_L scenario draws 10)

/-- Spreadsheet cell: a string, a number, or the empty-string placeholder
used for absent values. -/
inductive Cell where
  | str : String → Cell
  | num : ℝ → Cell
  | empty : Cell

/-- Conversion used by build_sheet_rows: dict .get with default '' writes
an empty cell for a missing value and a numeric cell otherwise. -/
def opt_cell : Option ℝ → Cell
  | none => .empty
  | some x => .num x

/-- Association list mirroring the mean5/mean10 dicts of simulate_client,
whose key set is exactly tests_order. -/
noncomputable def mean_rows (cfg : Config) (client : Client) (corr_tests : List String)
    (corr_L : ℕ → ℕ → ℝ) (scenario : Scenario) (draws : ℕ → Draw) (years : ℕ) :
    List (String × ℝ) :=
  cfg.tests_order.map (fun t => (t, sim_mean cfg client corr_tests corr_L scenario draws years t))

/-- Embedding of build_sheet_rows: a header row then one row per test in
tests_order with the baseline and the two horizon means. -/
noncomputable def build_sheet_rows (client : Client) (mean5 mean10 : List (String × ℝ))
    (tests : List String) : List (List Cell) :=
  [Cell.str "Test", Cell.str "Baseline", Cell.str "Year 5 Mean", Cell.str "Year 10 Mean"] ::
    tests.map (fun t =>
      [Cell.str t, opt_cell (client.data t), opt_cell (mean5.lookup t), opt_cell (mean10.lookup t)])

/-- Symmetric pair update corr[i][j] = v; corr[j][i] = v of build_correlation. -/
def set_pair (m : ℕ → ℕ → ℝ) (i j : ℕ) (v : ℝ) : ℕ → ℕ → ℝ :=
  fun a b => if (a = i ∧ b = j) ∨ (a = j ∧ b = i) then v else m a b

/-- Correlation matrix built by build_correlation: unit diagonal, zeros
elsewhere, then each pair written symmetrically in list order. -/
def corr_matrix (tests : List String) (pairs : List (String × String × ℝ)) : ℕ → ℕ → ℝ :=
  pairs.foldl (fun m p => set_pair m (tests.indexOf p.1) (tests.indexOf p.2.1) p.2.2)
    (fun i j => if i = j then 1 else 0)

/-- Diagonal inflation used by the retry ladder of build_correlation. -/
def inflate_diag (eps : ℝ) (m : ℕ → ℕ → ℝ) : ℕ → ℕ → ℝ :=
  fun i j => if i = j then m i j + eps else m i j

/-- Entries of the lower-triangular Cholesky factor computed by cholesky:
zero above the diagonal, sqrt of the pivot on the diagonal, and the
usual forward-substitution formula below it. -/
noncomputable def chol (A : ℕ → ℕ → ℝ) : ℕ → ℕ → ℝ
  | i, j =>
    if i < j then 0
    else if hij : i = j then
      Real.sqrt (A i i - ∑ k in (Finset.range i).attach, chol A i k.1 ^ 2)
    else
      (A i j - ∑ k in (Finset.range j).attach, chol A i k.1 * chol A j k.1) / chol A j j
termination_by i j => (i, j)
decreasing_by
  all_goals try (have hk := k.2; simp only [Finset.mem_range] at hk)
  all_goals
    first
      | exact Prod.Lex.right _ (by omega)
      | exact Prod.Lex.left _ _ (by omega)

/-- Diagonal pivot value tested against 0 inside cholesky at row i. -/
noncomputable def chol_pivot (A : ℕ → ℕ → ℝ) (i : ℕ) : ℝ :=
  A i i - ∑ k in Finset.range i, chol A i k ^ 2

/-- Success condition of cholesky on an n-by-n matrix: every diagonal
pivot is strictly positive (the source raises as soon as one is ≤ 0). -/
def chol_ok (A : ℕ → ℕ → ℝ) (n : ℕ) : Prop :=
  ∀ i < n, 0 < chol_pivot A i

/-- Retry epsilons of build_correlation, in source order. -/
def eps_ladder : List ℝ := [0.0, 1e-8, 1e-6, 1e-5, 1e-4, 1e-3, 1e-2]

noncomputable instance (A : ℕ → ℕ → ℝ) (n : ℕ) : Decidable (chol_ok A n) :=
  Classical.propDecidable _

/-- Embedding of the retry loop of build_correlation: try each epsilon in
order, return the factor of the first inflated matrix whose Cholesky
succeeds, none when every epsilon fails. -/
noncomputable def try_eps (A : ℕ → ℕ → ℝ) (n : ℕ) : List ℝ → Option (ℕ → ℕ → ℝ)
  | [] => none
  | e :: rest =>
    if chol_ok (inflate_diag e A) n then some (chol (inflate_diag e A))
    else try_eps A n rest

/-- Correlation specification: the cfg['correlations'] block. -/
structure CorrSpec where
  tests : List String
  pairs : List (String × String × ℝ)

/-- Embedding of build_correlation: none models the RuntimeError raised
when every epsilon fails. -/
noncomputable def build_correlation (cs : CorrSpec) : Option (List String × (ℕ → ℕ → ℝ)) :=
  (try_eps (corr_matrix cs.tests cs.pairs) cs.tests.length eps_ladder).map
    (fun L => (cs.tests, L))

/-- Shared shape of apply_measurement_noise and infer_true_from_observed
at zero coefficient of variation: the identity away from the clamped
region, with values clamped to 0 where the model forbids them. -/
noncomputable def cv0_clamp (measurement_lognormal allow_negative_tests : List String)
    (t : String) (v : ℝ) : ℝ :=
  if t ∈ measurement_lognormal then (if v ≤ 0 then 0 else v)
  else (if t ∉ allow_negative_tests ∧ v < 0 then 0 else v)

/-
Concrete configurations used to instantiate the theorems below.
-/

/-- Neutral improvement configuration. -/
noncomputable def improve0 : ImproveCfg :=
  ⟨0, (0, 0), (0, 0), ⟨1, 1, 1, none, none⟩, fun _ => none⟩

/-- Disabled practice effect. -/
def practice0 : PracticeCfg := ⟨false, none, [], 0⟩

/-- Neutral base configuration; concrete configurations below override
the relevant fields. -/
noncomputable def cfg0 : Config where
  tests_order := []
  higher_is_better := []
  lower_is_better := []
  cognitive_tests := []
  absolute_decline_tests := []
  allow_negative_tests_opt := none
  base_rate_per_decade := fun _ => 0
  post_rate_per_decade := fun _ => none
  accelerate_from_age := fun _ => none
  rate_uncertainty_cv := fun _ => 0
  rate_lognormal := []
  measurement_cv := fun _ => 0
  measurement_lognormal := []
  improvement := improve0
  practice_effect := practice0
  n_sim := 1

/-- Zero random stream. -/
def draw0 : Draw :=
  ⟨fun _ => 0, fun _ => 0, fun _ => 0, fun _ _ => 0, fun _ _ => 0, fun _ _ => 0⟩

/-- Configuration with one cognitive HigherIsBetter test, zero rates,
zero noise, and an enabled practice effect of +0.05 at year 5. -/
noncomputable def cfg_practice : Config where
  tests_order := ["Working Memory"]
  higher_is_better := ["Working Memory"]
  lower_is_better := []
  cognitive_tests := ["Working Memory"]
  absolute_decline_tests := ["Working Memory"]
  allow_negative_tests_opt := none
  base_rate_per_decade := fun _ => 0
  post_rate_per_decade := fun _ => none
  accelerate_from_age := fun _ => none
  rate_uncertainty_cv := fun _ => 0
  rate_lognormal := []
  measurement_cv := fun _ => 0
  measurement_lognormal := []
  improvement := improve0
  practice_effect := ⟨true, some 5, ["Working Memory"], 0.05⟩
  n_sim := 1

/-- Client with baseline 1.0 for the practice-effect test. -/
noncomputable def client_practice : Client :=
  ⟨some 45, fun t => if t = "Working Memory" then some 1 else none⟩

/-- Configuration with a single relative HigherIsBetter test at base
rate 0.05 per decade, zero uncertainty and noise, practice disabled. -/
noncomputable def cfg_w2 : Config where
  tests_order := ["VO2 max"]
  higher_is_better := ["VO2 max"]
  lower_is_better := []
  cognitive_tests := []
  absolute_decline_tests := []
  allow_negative_tests_opt := none
  base_rate_per_decade := fun _ => 0.05
  post_rate_per_decade := fun _ => none
  accelerate_from_age := fun _ => none
  rate_uncertainty_cv := fun _ => 0
  rate_lognormal := []
  measurement_cv := fun _ => 0
  measurement_lognormal := []
  improvement := improve0
  practice_effect := practice0
  n_sim := 1

/-- Client aged 45 with VO2 max baseline 40. -/
noncomputable def client_w2 : Client :=
  ⟨some 45, fun t => if t = "VO2 max" then some 40 else none⟩

/-- Configuration for the end-to-end decline scenario: one VO2 max test,
HigherIsBetter, relative decline, lognormal rate model at 0.05 per
decade, no acceleration age, zero noise and uncertainty, n_sim = 1. -/
noncomputable def cfg_c9 : Config where
  tests_order := ["VO2 max"]
  higher_is_better := ["VO2 max"]
  lower_is_better := []
  cognitive_tests := []
  absolute_decline_tests := []
  allow_negative_tests_opt := none
  base_rate_per_decade := fun _ => 0.05
  post_rate_per_decade := fun _ => none
  accelerate_from_age := fun _ => none
  rate_uncertainty_cv := fun _ => 0
  rate_lognormal := ["VO2 max"]
  measurement_cv := fun _ => 0
  measurement_lognormal := []
  improvement := improve0
  practice_effect := practice0
  n_sim := 1

/-- Client aged 45 with observed VO2 max baseline 40.0. -/
noncomputable def client_c9 : Client :=
  ⟨some 45, fun t => if t = "VO2 max" then some 40 else none⟩

/-- Configuration with a negative configured base rate and a configured
post rate of 1 for one test, zero rate uncertainty. -/
noncomputable def cfg_c7 : Config where
  tests_order := ["Grip Strength"]
  higher_is_better := ["Grip Strength"]
  lower_is_better := []
  cognitive_tests := []
  absolute_decline_tests := []
  allow_negative_tests_opt := none
  base_rate_per_decade := fun _ => -1
  post_rate_per_decade := fun _ => some 1
  accelerate_from_age := fun _ => some 60
  rate_uncertainty_cv := fun _ => 0
  rate_lognormal := []
  measurement_cv := fun _ => 0
  measurement_lognormal := []
  improvement := improve0
  practice_effect := practice0
  n_sim := 1

/-- Configuration with one absolute-decline cognitive test at base rate
0.5 per decade, zero noise and uncertainty. -/
noncomputable def cfg_c1 : Config where
  tests_order := ["Working Memory"]
  higher_is_better := ["Working Memory"]
  lower_is_better := []
  cognitive_tests := ["Working Memory"]
  absolute_decline_tests := ["Working Memory"]
  allow_negative_tests_opt := none
  base_rate_per_decade := fun _ => 0.5
  post_rate_per_decade := fun _ => none
  accelerate_from_age := fun _ => none
  rate_uncertainty_cv := fun _ => 0
  rate_lognormal := []
  measurement_cv := fun _ => 0
  measurement_lognormal := []
  improvement := improve0
  practice_effect := practice0
  n_sim := 1

/-- Client aged 45 with no observed baselines at all. -/
noncomputable def client_c1 : Client := ⟨some 45, fun _ => none⟩

/-- Configuration for the C3 witness: one relative HigherIsBetter test
with a degenerate improvement range [0.1, 0.1] and zero rates. -/
noncomputable def cfg_w3 : Config where
  tests_order := ["Grip Strength"]
  higher_is_better := ["Grip Strength"]
  lower_is_better := []
  cognitive_tests := []
  absolute_decline_tests := []
  allow_negative_tests_opt := none
  base_rate_per_decade := fun _ => 0
  post_rate_per_decade := fun _ => none
  accelerate_from_age := fun _ => none
  rate_uncertainty_cv := fun _ => 0
  rate_lognormal := []
  measurement_cv := fun _ => 0
  measurement_lognormal := []
  improvement := ⟨0, (0, 0), (0, 0), ⟨1, 1, 1, none, none⟩,
    fun t => if t = "Grip Strength" then some (0.1, 0.1) else none⟩
  practice_effect := practice0
  n_sim := 1

/-- Client aged 45 with Grip Strength baseline 10. -/
noncomputable def client_w3 : Client :=
  ⟨some 45, fun t => if t = "Grip Strength" then some 10 else none⟩

/-- Correlation specification with two tests and no pairs: the identity
correlation matrix. -/
def cs_w5 : CorrSpec := ⟨["A", "B"], []⟩

/-
Helper lemmas: Cholesky entry equations.
-/

lemma chol_above (A : ℕ → ℕ → ℝ) {i j : ℕ} (h : i < j) : chol A i j = 0 := by
  rw [chol]; simp [h]

lemma chol_diag (A : ℕ → ℕ → ℝ) (i : ℕ) : chol A i i = Real.sqrt (chol_pivot A i) := by
  rw [chol, chol_pivot,
    Finset.sum_attach (Finset.range i) (fun k => chol A i k ^ 2)]
  simp

lemma chol_below (A : ℕ → ℕ → ℝ) {i j : ℕ} (h : j < i) :
    chol A i j =
      (A i j - ∑ k in Finset.range j, chol A i k * chol A j k) / chol A j j := by
  have h1 : ¬ i < j := by omega
  have h2 : ¬ i = j := by omega
  rw [chol,
    Finset.sum_attach (Finset.range j) (fun k => chol A i k * chol A j k)]
  simp [h1, h2]

/-
Helper lemmas: zero coefficient of variation collapses the noise model
to a pure clamp.
-/

lemma lognormal_sigma_zero : lognormal_sigma_from_cv 0 = 0 := by
  have : (1.0 : ℝ) + 0 * 0 = 1 := by norm_num
  rw [lognormal_sigma_from_cv, this, Real.log_one, Real.sqrt_zero]

lemma apply_measurement_noise_cv0 {mcv : String → ℝ} {t : String}
    (hc : mcv t = 0) (v : ℝ) (ln an : List String) (z : ℝ) :
    apply_measurement_noise t v mcv ln an z = cv0_clamp ln an t v := by
  unfold apply_measurement_noise cv0_clamp
  simp [hc, lognormal_sigma_zero]

lemma infer_true_cv0 {mcv : String → ℝ} {t : String}
    (hc : mcv t = 0) (v : ℝ) (ln an : List String) (z : ℝ) :
    infer_true_from_observed t v mcv ln an z = cv0_clamp ln an t v := by
  unfold infer_true_from_observed cv0_clamp
  simp [hc, lognormal_sigma_zero]

lemma cv0_clamp_of_nonneg {v : ℝ} (ln an : List String) (t : String) (h : 0 ≤ v) :
    cv0_clamp ln an t v = v := by
  unfold cv0_clamp
  split_ifs with h1 h2 h3
  · exact (le_antisymm h2 h).symm
  · rfl
  · exact absurd h3.2 (not_lt.mpr h)
  · rfl

lemma cv0_clamp_mono {v w : ℝ} (ln an : List String) (t : String) (h : v ≤ w) :
    cv0_clamp ln an t v ≤ cv0_clamp ln an t w := by
  unfold cv0_clamp
  by_cases hm : t ∈ ln
  · simp only [if_pos hm]
    by_cases h1 : v ≤ 0 <;> by_cases h2 : w ≤ 0 <;> simp only [if_pos, if_neg, h1, h2] <;>
      simp [h1, h2] <;> linarith
  · simp only [if_neg hm]
    by_cases h1 : t ∉ an ∧ v < 0 <;> by_cases h2 : t ∉ an ∧ w < 0
    · simp [h1, h2]
    · simp only [if_pos h1, if_neg h2]
      push_neg at h2
      linarith [h2 h1.1]
    · simp only [if_neg h1, if_pos h2]
      linarith [h2.2]
    · simp only [if_neg h1, if_neg h2]
      exact h

/-
Helper lemmas: branch forms of apply_segment.
-/

lemma apply_segment_nonpos {ys : ℝ} (ua hib : Bool) (r val : ℝ) (h : ys ≤ 0) :
    apply_segment ua hib r val ys = val := by
  simp [apply_segment, h]

lemma seg_rel_hi {ys val : ℝ} (r : ℝ) (h : 0 < ys) (hv : 0 ≤ val) :
    apply_segment false true r val ys = val * (1 - r) ^ (ys / 10) := by
  simp [apply_segment, not_le.mpr h, hv]

lemma seg_rel_lo {ys val : ℝ} (r : ℝ) (h : 0 < ys) (hv : 0 ≤ val) :
    apply_segment false false r val ys = val * (1 + r) ^ (ys / 10) := by
  simp [apply_segment, not_le.mpr h, hv]

lemma seg_abs_hi {ys : ℝ} (r val : ℝ) (h : 0 < ys) :
    apply_segment true true r val ys = val - r * (ys / 10) := by
  simp [apply_segment, not_le.mpr h]

lemma seg_abs_lo {ys : ℝ} (r val : ℝ) (h : 0 < ys) :
    apply_segment true false r val ys = val + r * (ys / 10) := by
  simp [apply_segment, not_le.mpr h]

/-
Helper lemmas: pointwise bounds and monotonicity of apply_segment in the
four direction/magnitude regimes, under the natural rate bounds.
-/

lemma seg_rel_hi_nonneg {r val ys : ℝ} (hr1 : r ≤ 1) (hv : 0 ≤ val) :
    0 ≤ apply_segment false true r val ys := by
  rcases le_or_lt ys 0 with h | h
  · rw [apply_segment_nonpos _ _ _ _ h]; exact hv
  · rw [seg_rel_hi r h hv]
    exact mul_nonneg hv (Real.rpow_nonneg (by linarith) _)

lemma seg_rel_lo_nonneg {r val ys : ℝ} (hr0 : 0 ≤ r) (hv : 0 ≤ val) :
    0 ≤ apply_segment false false r val ys := by
  rcases le_or_lt ys 0 with h | h
  · rw [apply_segment_nonpos _ _ _ _ h]; exact hv
  · rw [seg_rel_lo r h hv]
    exact mul_nonneg hv (Real.rpow_nonneg (by linarith) _)

lemma seg_rel_hi_le {r val ys : ℝ} (hr0 : 0 ≤ r) (hr1 : r ≤ 1) (hv : 0 ≤ val) :
    apply_segment false true r val ys ≤ val := by
  rcases le_or_lt ys 0 with h | h
  · rw [apply_segment_nonpos _ _ _ _ h]
  · rw [seg_rel_hi r h hv]
    have h1 : (1 - r) ^ (ys / 10) ≤ 1 :=
      Real.rpow_le_one (by linarith) (by linarith) (by positivity)
    exact mul_le_of_le_one_right hv h1

lemma seg_rel_lo_ge {r val ys : ℝ} (hr0 : 0 ≤ r) (hv : 0 ≤ val) :
    val ≤ apply_segment false false r val ys := by
  rcases le_or_lt ys 0 with h | h
  · rw [apply_segment_nonpos _ _ _ _ h]
  · rw [seg_rel_lo r h hv]
    have h1 : (1 : ℝ) ≤ (1 + r) ^ (ys / 10) := by
      calc (1 : ℝ) = 1 ^ (ys / 10) := (Real.one_rpow _).symm
      _ ≤ (1 + r) ^ (ys / 10) :=
        Real.rpow_le_rpow (by norm_num) (by linarith) (by positivity)
    exact le_mul_of_one_le_right hv h1

lemma seg_abs_hi_le {r val ys : ℝ} (hr0 : 0 ≤ r) :
    apply_segment true true r val ys ≤ val := by
  rcases le_or_lt ys 0 with h | h
  · rw [apply_segment_nonpos _ _ _ _ h]
  · rw [seg_abs_hi r val h]
    nlinarith

lemma seg_abs_lo_ge {r val ys : ℝ} (hr0 : 0 ≤ r) :
    val ≤ apply_segment true false r val ys := by
  rcases le_or_lt ys 0 with h | h
  · rw [apply_segment_nonpos _ _ _ _ h]
  · rw [seg_abs_lo r val h]
    nlinarith

lemma seg_rel_hi_mono_years {r val y yy : ℝ} (hr0 : 0 ≤ r) (hr1 : r ≤ 1)
    (hv : 0 ≤ val) (h : y ≤ yy) :
    apply_segment false true r val yy ≤ apply_segment false true r val y := by
  rcases le_or_lt yy 0 with h2 | h2
  · rw [apply_segment_nonpos _ _ _ _ h2, apply_segment_nonpos _ _ _ _ (h.trans h2)]
  rcases le_or_lt y 0 with h1 | h1
  · rw [apply_segment_nonpos _ _ _ _ h1]
    exact seg_rel_hi_le hr0 hr1 hv
  · rw [seg_rel_hi r h1 hv, seg_rel_hi r h2 hv]
    rcases lt_or_eq_of_le hr1 with hlt | heq
    · have hd : y / 10 ≤ yy / 10 := by linarith
      have := Real.rpow_le_rpow_of_exponent_ge (x := 1 - r) (by linarith) (by linarith) hd
      exact mul_le_mul_of_nonneg_left this hv
    · have hz : 1 - r = 0 := by rw [← heq]; ring
      rw [hz, Real.zero_rpow (by positivity), Real.zero_rpow (by positivity)]

lemma seg_rel_lo_mono_years {r val y yy : ℝ} (hr0 : 0 ≤ r)
    (hv : 0 ≤ val) (h : y ≤ yy) :
    apply_segment false false r val y ≤ apply_segment false false r val yy := by
  rcases le_or_lt yy 0 with h2 | h2
  · rw [apply_segment_nonpos _ _ _ _ h2, apply_segment_nonpos _ _ _ _ (h.trans h2)]
  rcases le_or_lt y 0 with h1 | h1
  · rw [apply_segment_nonpos _ _ _ _ h1]
    exact seg_rel_lo_ge hr0 hv
  · rw [seg_rel_lo r h1 hv, seg_rel_lo r h2 hv]
    have hd : y / 10 ≤ yy / 10 := by linarith
    have := Real.rpow_le_rpow_of_exponent_le (x := 1 + r) (by linarith) hd
    exact mul_le_mul_of_nonneg_left this hv

lemma seg_abs_hi_mono_years {r val y yy : ℝ} (hr0 : 0 ≤ r) (h0 : 0 ≤ y) (h : y ≤ yy) :
    apply_segment true true r val yy ≤ apply_segment true true r val y := by
  rcases le_or_lt yy 0 with h2 | h2
  · rw [apply_segment_nonpos _ _ _ _ h2, apply_segment_nonpos _ _ _ _ (h.trans h2)]
  rcases le_or_lt y 0 with h1 | h1
  · rw [apply_segment_nonpos _ _ _ _ h1]
    exact seg_abs_hi_le hr0
  · rw [seg_abs_hi r val h1, seg_abs_hi r val h2]
    nlinarith

lemma seg_abs_lo_mono_years {r val y yy : ℝ} (hr0 : 0 ≤ r) (h0 : 0 ≤ y) (h : y ≤ yy) :
    apply_segment true false r val y ≤ apply_segment true false r val yy := by
  rcases le_or_lt yy 0 with h2 | h2
  · rw [apply_segment_nonpos _ _ _ _ h2, apply_segment_nonpos _ _ _ _ (h.trans h2)]
  rcases le_or_lt y 0 with h1 | h1
  · rw [apply_segment_nonpos _ _ _ _ h1]
    exact seg_abs_lo_ge hr0
  · rw [seg_abs_lo r val h1, seg_abs_lo r val h2]
    nlinarith

lemma seg_rel_hi_mono_val {r v w ys : ℝ} (hr1 : r ≤ 1) (hv : 0 ≤ v) (hvw : v ≤ w) :
    apply_segment false true r v ys ≤ apply_segment false true r w ys := by
  rcases le_or_lt ys 0 with h | h
  · rw [apply_segment_nonpos _ _ _ _ h, apply_segment_nonpos _ _ _ _ h]; exact hvw
  · rw [seg_rel_hi r h hv, seg_rel_hi r h (hv.trans hvw)]
    exact mul_le_mul_of_nonneg_right hvw (Real.rpow_nonneg (by linarith) _)

lemma seg_rel_lo_mono_val {r v w ys : ℝ} (hr0 : 0 ≤ r) (hv : 0 ≤ v) (hvw : v ≤ w) :
    apply_segment false false r v ys ≤ apply_segment false false r w ys := by
  rcases le_or_lt ys 0 with h | h
  · rw [apply_segment_nonpos _ _ _ _ h, apply_segment_nonpos _ _ _ _ h]; exact hvw
  · rw [seg_rel_lo r h hv, seg_rel_lo r h (hv.trans hvw)]
    exact mul_le_mul_of_nonneg_right hvw (Real.rpow_nonneg (by linarith) _)

lemma seg_abs_mono_val {r v w ys : ℝ} (hib : Bool) (hvw : v ≤ w) :
    apply_segment true hib r v ys ≤ apply_segment true hib r w ys := by
  rcases le_or_lt ys 0 with h | h
  · rw [apply_segment_nonpos _ _ _ _ h, apply_segment_nonpos _ _ _ _ h]; exact hvw
  · cases hib
    · rw [seg_abs_lo r v h, seg_abs_lo r w h]; linarith
    · rw [seg_abs_hi r v h, seg_abs_hi r w h]; linarith

/-
Helper lemmas: the years1/years2 split and apply_decline.
-/

lemma decline_split_nonneg {a years : ℝ} (accel : Option ℝ) (h : 0 ≤ years) :
    0 ≤ (decline_split a years accel).1 ∧ 0 ≤ (decline_split a years accel).2 := by
  cases accel with
  | none => exact ⟨h, le_refl 0⟩
  | some c =>
    unfold decline_split
    by_cases hc : a < c
    · simp only [if_pos hc]
      refine ⟨le_min h (by linarith), ?_⟩
      have := min_le_left years (c - a)
      show 0 ≤ years - min years (c - a)
      linarith
    · simp only [if_neg hc]
      exact ⟨le_refl 0, h⟩

lemma decline_split_mono {a y yy : ℝ} (accel : Option ℝ) (h : y ≤ yy) :
    (decline_split a y accel).1 ≤ (decline_split a yy accel).1 ∧
      (decline_split a y accel).2 ≤ (decline_split a yy accel).2 := by
  cases accel with
  | none => exact ⟨h, le_refl 0⟩
  | some c =>
    unfold decline_split
    by_cases hc : a < c
    · simp only [if_pos hc]
      refine ⟨min_le_min h (le_refl _), ?_⟩
      show y - min y (c - a) ≤ yy - min yy (c - a)
      rcases le_total y (c - a) with h1 | h1
      · rw [min_eq_left h1]
        have := min_le_left yy (c - a)
        linarith
      · rw [min_eq_right h1]
        rcases le_total yy (c - a) with h2 | h2
        · rw [min_eq_left h2]
          linarith
        · rw [min_eq_right h2]
          linarith
    · simp only [if_neg hc]
      exact ⟨le_refl 0, h⟩

lemma apply_decline_nonpos {value a ys rb : ℝ} {rp ac : Option ℝ} {hib ua : Bool}
    (h : ys ≤ 0) : apply_decline value a ys rb rp ac hib ua = value := by
  simp [apply_decline, h]

lemma apply_decline_pos {value a ys rb : ℝ} {rp ac : Option ℝ} {hib ua : Bool}
    (h : 0 < ys) :
    apply_decline value a ys rb rp ac hib ua =
      apply_segment ua hib (rp.getD rb)
        (apply_segment ua hib rb value (decline_split a ys ac).1)
        (decline_split a ys ac).2 := by
  simp [apply_decline, not_le.mpr h]

lemma apply_decline_hi_le {value a ys rb : ℝ} {rp ac : Option ℝ} (ua : Bool)
    (hb0 : 0 ≤ rb) (hb1 : rb ≤ 1)
    (hp0 : 0 ≤ rp.getD rb) (hp1 : rp.getD rb ≤ 1) (hv : 0 ≤ value) :
    apply_decline value a ys rb rp ac true ua ≤ value := by
  rcases le_or_lt ys 0 with h | h
  · rw [apply_decline_nonpos h]
  · rw [apply_decline_pos h]
    cases ua
    · have s1 := @seg_rel_hi_le rb value ((decline_split a ys ac).1) hb0 hb1 hv
      have s1n := @seg_rel_hi_nonneg rb value ((decline_split a ys ac).1) hb1 hv
      exact (seg_rel_hi_le hp0 hp1 s1n).trans s1
    · exact (seg_abs_hi_le hp0).trans (seg_abs_hi_le hb0)

lemma apply_decline_lo_ge {value a ys rb : ℝ} {rp ac : Option ℝ} (ua : Bool)
    (hb0 : 0 ≤ rb) (hp0 : 0 ≤ rp.getD rb) (hv : 0 ≤ value) :
    value ≤ apply_decline value a ys rb rp ac false ua := by
  rcases le_or_lt ys 0 with h | h
  · rw [apply_decline_nonpos h]
  · rw [apply_decline_pos h]
    cases ua
    · have s1 := @seg_rel_lo_ge rb value ((decline_split a ys ac).1) hb0 hv
      have s1n := @seg_rel_lo_nonneg rb value ((decline_split a ys ac).1) hb0 hv
      exact s1.trans (seg_rel_lo_ge hp0 s1n)
    · exact (seg_abs_lo_ge hb0).trans (seg_abs_lo_ge hp0)

lemma apply_decline_hi_mono {value a y yy rb : ℝ} {rp ac : Option ℝ} (ua : Bool)
    (hb0 : 0 ≤ rb) (hb1 : rb ≤ 1)
    (hp0 : 0 ≤ rp.getD rb) (hp1 : rp.getD rb ≤ 1) (hv : 0 ≤ value)
    (h0 : 0 ≤ y) (h : y ≤ yy) :
    apply_decline value a yy rb rp ac true ua ≤ apply_decline value a y rb rp ac true ua := by
  rcases le_or_lt yy 0 with h2 | h2
  · rw [apply_decline_nonpos h2, apply_decline_nonpos (h.trans h2)]
  rcases le_or_lt y 0 with h1 | h1
  · rw [apply_decline_nonpos h1]
    exact apply_decline_hi_le ua hb0 hb1 hp0 hp1 hv
  · rw [apply_decline_pos h1, apply_decline_pos h2]
    obtain ⟨m1, m2⟩ := decline_split_mono (a := a) ac h
    obtain ⟨n1, n2⟩ := decline_split_nonneg (a := a) ac (le_of_lt h1)
    cases ua
    · have A := seg_rel_hi_mono_years hb0 hb1 hv m1
      have AnY := @seg_rel_hi_nonneg rb value ((decline_split a yy ac).1) hb1 hv
      have AnX := @seg_rel_hi_nonneg rb value ((decline_split a y ac).1) hb1 hv
      calc apply_segment false true (rp.getD rb)
            (apply_segment false true rb value (decline_split a yy ac).1)
            (decline_split a yy ac).2
          ≤ apply_segment false true (rp.getD rb)
            (apply_segment false true rb value (decline_split a y ac).1)
            (decline_split a yy ac).2 := seg_rel_hi_mono_val hp1 AnY A
        _ ≤ apply_segment false true (rp.getD rb)
            (apply_segment false true rb value (decline_split a y ac).1)
            (decline_split a y ac).2 := seg_rel_hi_mono_years hp0 hp1 AnX m2
    · have A := @seg_abs_hi_mono_years rb value ((decline_split a y ac).1)
        ((decline_split a yy ac).1) hb0 n1 m1
      calc apply_segment true true (rp.getD rb)
            (apply_segment true true rb value (decline_split a yy ac).1)
            (decline_split a yy ac).2
          ≤ apply_segment true true (rp.getD rb)
            (apply_segment true true rb value (decline_split a y ac).1)
            (decline_split a yy ac).2 := seg_abs_mono_val true A
        _ ≤ apply_segment true true (rp.getD rb)
            (apply_segment true true rb value (decline_split a y ac).1)
            (decline_split a y ac).2 := seg_abs_hi_mono_years hp0 n2 m2

lemma apply_decline_lo_mono {value a y yy rb : ℝ} {rp ac : Option ℝ} (ua : Bool)
    (hb0 : 0 ≤ rb) (hp0 : 0 ≤ rp.getD rb) (hv : 0 ≤ value)
    (h0 : 0 ≤ y) (h : y ≤ yy) :
    apply_decline value a y rb rp ac false ua ≤ apply_decline value a yy rb rp ac false ua := by
  rcases le_or_lt yy 0 with h2 | h2
  · rw [apply_decline_nonpos h2, apply_decline_nonpos (h.trans h2)]
  rcases le_or_lt y 0 with h1 | h1
  · rw [apply_decline_nonpos h1]
    exact apply_decline_lo_ge ua hb0 hp0 hv
  · rw [apply_decline_pos h1, apply_decline_pos h2]
    obtain ⟨m1, m2⟩ := decline_split_mono (a := a) ac h
    obtain ⟨n1, n2⟩ := decline_split_nonneg (a := a) ac (le_of_lt h1)
    cases ua
    · have A := seg_rel_lo_mono_years hb0 hv m1
      have AnY := @seg_rel_lo_nonneg rb value ((decline_split a yy ac).1) hb0 hv
      have AnX := @seg_rel_lo_nonneg rb value ((decline_split a y ac).1) hb0 hv
      calc apply_segment false false (rp.getD rb)
            (apply_segment false false rb value (decline_split a y ac).1)
            (decline_split a y ac).2
          ≤ apply_segment false false (rp.getD rb)
            (apply_segment false false rb value (decline_split a y ac).1)
            (decline_split a yy ac).2 := seg_rel_lo_mono_years hp0 AnX m2
        _ ≤ apply_segment false false (rp.getD rb)
            (apply_segment false false rb value (decline_split a yy ac).1)
            (decline_split a yy ac).2 := seg_rel_lo_mono_val hp0 AnX A
    · have A := @seg_abs_lo_mono_years rb value ((decline_split a y ac).1)
        ((decline_split a yy ac).1) hb0 n1 m1
      calc apply_segment true false (rp.getD rb)
            (apply_segment true false rb value (decline_split a y ac).1)
            (decline_split a y ac).2
          ≤ apply_segment true false (rp.getD rb)
            (apply_segment true false rb value (decline_split a y ac).1)
            (decline_split a yy ac).2 := seg_abs_lo_mono_years hp0 n2 m2
        _ ≤ apply_segment true false (rp.getD rb)
            (apply_segment true false rb value (decline_split a yy ac).1)
            (decline_split a yy ac).2 := seg_abs_mono_val false A

/-
Helper lemmas: rate sampling and the full per-draw pipeline at zero
coefficients of variation.
-/

lemma sampled_rate_cv0 (cfg : Config) (T : List String) (L : ℕ → ℕ → ℝ) (d : Draw)
    (t : String) (hcv : cfg.rate_uncertainty_cv t = 0)
    (hmu0 : 0 ≤ cfg.base_rate_per_decade t)
    (hlog : t ∈ cfg.rate_lognormal → 0 < cfg.base_rate_per_decade t) :
    sampled_rate cfg T L d t = cfg.base_rate_per_decade t := by
  unfold sampled_rate sample_rate
  by_cases hmem : t ∈ cfg.rate_lognormal
  · simp [hmem, hcv, lognormal_sigma_zero, Real.exp_log (hlog hmem)]
  · simp [hmem, hcv, not_lt.mpr hmu0]

lemma sampled_rate_post_cv0 (cfg : Config) (T : List String) (L : ℕ → ℕ → ℝ) (d : Draw)
    (t : String) (hcv : cfg.rate_uncertainty_cv t = 0)
    (hmu0 : 0 ≤ cfg.base_rate_per_decade t)
    (hlog : t ∈ cfg.rate_lognormal → 0 < cfg.base_rate_per_decade t) :
    sampled_rate_post cfg T L d t = cfg.post_rate_per_decade t := by
  unfold sampled_rate_post
  cases hp : cfg.post_rate_per_decade t with
  | none => simp
  | some p =>
    simp only [Option.some.injEq]
    rw [sampled_rate_cv0 cfg T L d t hcv hmu0 hlog]
    by_cases h : 0 < cfg.base_rate_per_decade t
    · rw [if_pos h, div_self (ne_of_gt h), mul_one]
    · rw [if_neg h]

lemma true0_cv0 (cfg : Config) (client : Client) (d : Draw) (t : String) (b : ℝ)
    (hm : cfg.measurement_cv t = 0) (hdata : client.data t = some b) (hb : 0 ≤ b) :
    true0 cfg client d t = b := by
  unfold true0
  rw [hdata]
  simp only [Option.getD_some]
  rw [infer_true_cv0 hm]
  exact cv0_clamp_of_nonneg _ _ _ hb

lemma practice_adjust_not {cfg : Config} {years : ℕ} {t : String} (v : ℝ)
    (h : ¬ practice_applies cfg years t) : practice_adjust cfg years t v = v := by
  simp [practice_adjust, h]

lemma simulated_obs_decline_cv0 (cfg : Config) (client : Client) (T : List String)
    (L : ℕ → ℕ → ℝ) (d : Draw) (years : ℕ) (t : String) (b : ℝ)
    (hm : cfg.measurement_cv t = 0) (hr : cfg.rate_uncertainty_cv t = 0)
    (hdata : client.data t = some b) (hb : 0 ≤ b)
    (hmu0 : 0 ≤ cfg.base_rate_per_decade t)
    (hlog : t ∈ cfg.rate_lognormal → 0 < cfg.base_rate_per_decade t)
    (hpr : ¬ practice_applies cfg years t) :
    simulated_obs cfg client T L .decline d years t =
      cv0_clamp cfg.measurement_lognormal cfg.allow_negative_tests t
        (apply_decline b (client.age.getD 0) (years : ℝ)
          (cfg.base_rate_per_decade t) (cfg.post_rate_per_decade t)
          (cfg.accelerate_from_age t) (decide (t ∈ cfg.higher_is_better))
          (decide (t ∈ cfg.absolute_decline_tests))) := by
  unfold simulated_obs pre_noise_val
  rw [apply_measurement_noise_cv0 hm]
  congr 1
  rw [practice_adjust_not _ hpr]
  show apply_decline (true0 cfg client d t) (client.age.getD 0) ((years : ℝ))
      (sampled_rate cfg T L d t) (sampled_rate_post cfg T L d t)
      (cfg.accelerate_from_age t) (decide (t ∈ cfg.higher_is_better))
      (decide (t ∈ cfg.absolute_decline_tests)) = _
  rw [true0_cv0 cfg client d t b hm hdata hb,
    sampled_rate_cv0 cfg T L d t hr hmu0 hlog,
    sampled_rate_post_cv0 cfg T L d t hr hmu0 hlog]

lemma sim_mean_const (cfg : Config) (client : Client) (T : List String)
    (L : ℕ → ℕ → ℝ) (s : Scenario) (draws : ℕ → Draw) (years : ℕ) (t : String) (v : ℝ)
    (h : ∀ i, simulated_obs cfg client T L s (draws i) years t = v) (hn : 0 < cfg.n_sim) :
    sim_mean cfg client T L s draws years t = v := by
  unfold sim_mean
  rw [Finset.sum_congr rfl (fun i _ => h i), Finset.sum_const, Finset.card_range,
    nsmul_eq_mul]
  exact mul_div_cancel_left₀ v (Nat.cast_ne_zero.mpr hn.ne')

/-- C2 (amended): under the decline scenario with zero measurement-noise
and zero rate-uncertainty coefficients of variation, for a test with a
nonnegative baseline whose base and post decade rates lie in [0,1]
(strictly positive base rate when its rate model is lognormal) and which
receives no practice-effect bump at either horizon, the simulated mean
at year 10 is ≤ the mean at year 5 ≤ the baseline when the test is
HigherIsBetter, and the reversed inequalities hold when it is
LowerIsBetter.  The improvement-scenario clause of the original claim is
dropped: aging resumes after the instantaneous bump, so improvement
trajectories need not be monotone (see the counterexample). -/
theorem mc_c2_amended (cfg : Config) (client : Client) (T : List String)
    (L : ℕ → ℕ → ℝ) (draws : ℕ → Draw) (t : String) (b : ℝ)
    (hm : cfg.measurement_cv t = 0) (hr : cfg.rate_uncertainty_cv t = 0)
    (hdata : client.data t = some b) (hb : 0 ≤ b)
    (hmu0 : 0 ≤ cfg.base_rate_per_decade t) (hmu1 : cfg.base_rate_per_decade t ≤ 1)
    (hlog : t ∈ cfg.rate_lognormal → 0 < cfg.base_rate_per_decade t)
    (hpost : ∀ p, cfg.post_rate_per_decade t = some p → 0 ≤ p ∧ p ≤ 1)
    (hpr5 : ¬ practice_applies cfg 5 t) (hpr10 : ¬ practice_applies cfg 10 t)
    (hn : 0 < cfg.n_sim) :
    (t ∈ cfg.higher_is_better →
      sim_mean cfg client T L .decline draws 10 t ≤ sim_mean cfg client T L .decline draws 5 t ∧
        sim_mean cfg client T L .decline draws 5 t ≤ b) ∧
    (t ∈ cfg.lower_is_better → t ∉ cfg.higher_is_better →
      b ≤ sim_mean cfg client T L .decline draws 5 t ∧
        sim_mean cfg client T L .decline draws 5 t ≤ sim_mean cfg client T L .decline draws 10 t) := by
  have hm5 : sim_mean cfg client T L .decline draws 5 t =
      cv0_clamp cfg.measurement_lognormal cfg.allow_negative_tests t
        (apply_decline b (client.age.getD 0) ((5 : ℕ) : ℝ)
          (cfg.base_rate_per_decade t) (cfg.post_rate_per_decade t)
          (cfg.accelerate_from_age t) (decide (t ∈ cfg.higher_is_better))
          (decide (t ∈ cfg.absolute_decline_tests))) :=
    sim_mean_const cfg client T L .decline draws 5 t _
      (fun i => simulated_obs_decline_cv0 cfg client T L (draws i) 5 t b
        hm hr hdata hb hmu0 hlog hpr5) hn
  have hm10 : sim_mean cfg client T L .decline draws 10 t =
      cv0_clamp cfg.measurement_lognormal cfg.allow_negative_tests t
        (apply_decline b (client.age.getD 0) ((10 : ℕ) : ℝ)
          (cfg.base_rate_per_decade t) (cfg.post_rate_per_decade t)
          (cfg.accelerate_from_age t) (decide (t ∈ cfg.higher_is_better))
          (decide (t ∈ cfg.absolute_decline_tests))) :=
    sim_mean_const cfg client T L .decline draws 10 t _
      (fun i => simulated_obs_decline_cv0 cfg client T L (draws i) 10 t b
        hm hr hdata hb hmu0 hlog hpr10) hn
  have hp0 : 0 ≤ (cfg.post_rate_per_decade t).getD (cfg.base_rate_per_decade t) := by
    cases hp : cfg.post_rate_per_decade t with
    | none => simpa using hmu0
    | some p => simpa using (hpost p hp).1
  have hp1 : (cfg.post_rate_per_decade t).getD (cfg.base_rate_per_decade t) ≤ 1 := by
    cases hp : cfg.post_rate_per_decade t with
    | none => simpa using hmu1
    | some p => simpa using (hpost p hp).2
  have hc5 : ((5 : ℕ) : ℝ) = (5 : ℝ) := by norm_num
  have hc10 : ((10 : ℕ) : ℝ) = (10 : ℝ) := by norm_num
  constructor
  · intro hhib
    have hde : decide (t ∈ cfg.higher_is_better) = true := decide_eq_true hhib
    rw [hm5, hm10, hde, hc5, hc10]
    constructor
    · exact cv0_clamp_mono _ _ _
        (apply_decline_hi_mono _ hmu0 hmu1 hp0 hp1 hb (by norm_num) (by norm_num))
    · have h1 := cv0_clamp_mono cfg.measurement_lognormal cfg.allow_negative_tests t
        (@apply_decline_hi_le b (client.age.getD 0) (5 : ℝ) (cfg.base_rate_per_decade t)
          (cfg.post_rate_per_decade t) (cfg.accelerate_from_age t)
          (decide (t ∈ cfg.absolute_decline_tests)) hmu0 hmu1 hp0 hp1 hb)
      rwa [cv0_clamp_of_nonneg _ _ _ hb] at h1
  · intro hlib hnot
    have hde : decide (t ∈ cfg.higher_is_better) = false := decide_eq_false hnot
    rw [hm5, hm10, hde, hc5, hc10]
    constructor
    · have h1 := cv0_clamp_mono cfg.measurement_lognormal cfg.allow_negative_tests t
        (@apply_decline_lo_ge b (client.age.getD 0) (5 : ℝ) (cfg.base_rate_per_decade t)
          (cfg.post_rate_per_decade t) (cfg.accelerate_from_age t)
          (decide (t ∈ cfg.absolute_decline_tests)) hmu0 hp0 hb)
      rwa [cv0_clamp_of_nonneg _ _ _ hb] at h1
    · exact cv0_clamp_mono _ _ _
        (apply_decline_lo_mono _ hmu0 hp0 hb (by norm_num) (by norm_num))

/-- C2 counterexample: in cfg_practice, the test Working Memory is
HigherIsBetter with zero measurement-noise and rate-uncertainty
coefficients of variation, yet under the decline scenario its simulated
year-5 mean is 1.05, strictly above the baseline 1.0, because the
practice-effect bump applies at year 5.  The claimed inequality
mean5 ≤ baseline therefore fails on the code. -/
theorem mc_c2_counterexample :
    "Working Memory" ∈ cfg_practice.higher_is_better ∧
    cfg_practice.measurement_cv "Working Memory" = 0 ∧
    cfg_practice.rate_uncertainty_cv "Working Memory" = 0 ∧
    client_practice.data "Working Memory" = some 1 ∧
    sim_mean cfg_practice client_practice [] (fun _ _ => 0) .decline (fun _ => draw0) 5
      "Working Memory" = 1.05 ∧
    ¬ (sim_mean cfg_practice client_practice [] (fun _ _ => 0) .decline (fun _ => draw0) 5
        "Working Memory" ≤ 1) := by
  have hval : sim_mean cfg_practice client_practice [] (fun _ _ => 0) .decline
      (fun _ => draw0) 5 "Working Memory" = 1.05 := by
    norm_num [sim_mean, cfg_practice, simulated_obs, pre_noise_val, practice_adjust,
      practice_applies, true0, infer_true_from_observed, apply_measurement_noise,
      apply_decline, decline_split, apply_segment, sampled_rate, sample_rate,
      sampled_rate_post, z_map_lookup, Config.allow_negative_tests, client_practice,
      draw0, Finset.sum_range_one]
  refine ⟨by simp [cfg_practice], rfl, rfl, by simp [client_practice], hval, ?_⟩
  rw [hval]
  norm_num

/-- Witness for the amended C2 theorem at a concrete configuration. -/
theorem mc_c2_amended_witness :
    ("VO2 max" ∈ cfg_w2.higher_is_better →
      sim_mean cfg_w2 client_w2 [] (fun _ _ => 0) .decline (fun _ => draw0) 10 "VO2 max" ≤
          sim_mean cfg_w2 client_w2 [] (fun _ _ => 0) .decline (fun _ => draw0) 5 "VO2 max" ∧
        sim_mean cfg_w2 client_w2 [] (fun _ _ => 0) .decline (fun _ => draw0) 5 "VO2 max" ≤ 40) ∧
    ("VO2 max" ∈ cfg_w2.lower_is_better → "VO2 max" ∉ cfg_w2.higher_is_better →
      40 ≤ sim_mean cfg_w2 client_w2 [] (fun _ _ => 0) .decline (fun _ => draw0) 5 "VO2 max" ∧
        sim_mean cfg_w2 client_w2 [] (fun _ _ => 0) .decline (fun _ => draw0) 5 "VO2 max" ≤
          sim_mean cfg_w2 client_w2 [] (fun _ _ => 0) .decline (fun _ => draw0) 10 "VO2 max") :=
  mc_c2_amended cfg_w2 client_w2 [] (fun _ _ => 0) (fun _ => draw0) "VO2 max" 40
    rfl rfl (by simp [client_w2]) (by norm_num) (by norm_num [cfg_w2])
    (by norm_num [cfg_w2]) (fun hmem => absurd hmem (by simp [cfg_w2]))
    (fun p hp => absurd hp (by simp [cfg_w2]))
    (by simp [practice_applies, cfg_w2, practice0])
    (by simp [practice_applies, cfg_w2, practice0])
    (by norm_num [cfg_w2])

/-- C9: for the one-client end-to-end scenario (age 45, VO2 max baseline
40.0, HigherIsBetter relative decline at sampled rate 0.05 per decade,
no acceleration, zero measurement noise, zero rate uncertainty,
n_sim = 1), the decline scenario produces year-5 mean
40·(1−0.05)^0.5 and year-10 mean 40·(1−0.05) = 38, for every random
stream. -/
theorem mc_c9_end_to_end (draws : ℕ → Draw) :
    sim_mean cfg_c9 client_c9 [] (fun _ _ => 0) .decline draws 5 "VO2 max" =
        40 * (1 - 0.05) ^ ((0.5 : ℝ)) ∧
      sim_mean cfg_c9 client_c9 [] (fun _ _ => 0) .decline draws 10 "VO2 max" = 38 := by
  have hpr5 : ¬ practice_applies cfg_c9 5 "VO2 max" := by
    simp [practice_applies, cfg_c9, practice0]
  have hpr10 : ¬ practice_applies cfg_c9 10 "VO2 max" := by
    simp [practice_applies, cfg_c9, practice0]
  have hmu0 : (0 : ℝ) ≤ cfg_c9.base_rate_per_decade "VO2 max" := by norm_num [cfg_c9]
  have hlog : "VO2 max" ∈ cfg_c9.rate_lognormal → 0 < cfg_c9.base_rate_per_decade "VO2 max" :=
    fun _ => by norm_num [cfg_c9]
  have hdata : client_c9.data "VO2 max" = some 40 := by simp [client_c9]
  have hb : decide ("VO2 max" ∈ cfg_c9.higher_is_better) = true := by simp [cfg_c9]
  have ha : decide ("VO2 max" ∈ cfg_c9.absolute_decline_tests) = false := by simp [cfg_c9]
  have h5 := sim_mean_const cfg_c9 client_c9 [] (fun _ _ => 0) .decline draws 5 "VO2 max" _
    (fun i => simulated_obs_decline_cv0 cfg_c9 client_c9 [] (fun _ _ => 0) (draws i) 5
      "VO2 max" 40 rfl rfl hdata (by norm_num) hmu0 hlog hpr5) (by norm_num [cfg_c9])
  have h10 := sim_mean_const cfg_c9 client_c9 [] (fun _ _ => 0) .decline draws 10 "VO2 max" _
    (fun i => simulated_obs_decline_cv0 cfg_c9 client_c9 [] (fun _ _ => 0) (draws i) 10
      "VO2 max" 40 rfl rfl hdata (by norm_num) hmu0 hlog hpr10) (by norm_num [cfg_c9])
  rw [hb, ha] at h5 h10
  have e5 : apply_decline 40 (client_c9.age.getD 0) ((5 : ℕ) : ℝ)
      (cfg_c9.base_rate_per_decade "VO2 max") (cfg_c9.post_rate_per_decade "VO2 max")
      (cfg_c9.accelerate_from_age "VO2 max") true false = 40 * (1 - 0.05) ^ ((0.5 : ℝ)) := by
    show apply_decline 40 ((some (45:ℝ)).getD 0) ((5 : ℕ) : ℝ) 0.05 none none true false = _
    rw [apply_decline_pos (by norm_num)]
    rw [show decline_split ((some (45:ℝ)).getD 0) ((5 : ℕ) : ℝ) none = (((5 : ℕ) : ℝ), 0)
      from rfl]
    rw [apply_segment_nonpos _ _ _ _ (le_refl (0 : ℝ))]
    show apply_segment false true 0.05 40 ((5 : ℕ) : ℝ) = _
    rw [seg_rel_hi 0.05 (by norm_num) (by norm_num)]
    norm_num
  have e10 : apply_decline 40 (client_c9.age.getD 0) ((10 : ℕ) : ℝ)
      (cfg_c9.base_rate_per_decade "VO2 max") (cfg_c9.post_rate_per_decade "VO2 max")
      (cfg_c9.accelerate_from_age "VO2 max") true false = 38 := by
    show apply_decline 40 ((some (45:ℝ)).getD 0) ((10 : ℕ) : ℝ) 0.05 none none true false = _
    rw [apply_decline_pos (by norm_num)]
    rw [show decline_split ((some (45:ℝ)).getD 0) ((10 : ℕ) : ℝ) none = (((10 : ℕ) : ℝ), 0)
      from rfl]
    rw [apply_segment_nonpos _ _ _ _ (le_refl (0 : ℝ))]
    show apply_segment false true 0.05 40 ((10 : ℕ) : ℝ) = _
    rw [seg_rel_hi 0.05 (by norm_num) (by norm_num)]
    have he : (((10 : ℕ) : ℝ)) / 10 = 1 := by norm_num
    rw [he, Real.rpow_one]
    norm_num
  have hpos5 : (0 : ℝ) ≤ 40 * (1 - 0.05) ^ ((0.5 : ℝ)) := by positivity
  rw [e5] at h5
  rw [e10] at h10
  rw [cv0_clamp_of_nonneg _ _ _ hpos5] at h5
  rw [cv0_clamp_of_nonneg _ _ _ (by norm_num : (0:ℝ) ≤ 38)] at h10
  exact ⟨h5, h10⟩

/-- C6: the per-draw sampled rate.  For a lognormal-rate test with
positive configured rate mu the rate is exp(ln mu + sigma*z) with
sigma = sqrt(ln(1+cv^2)); otherwise it is mu + |mu|*cv*z clamped below
at 0; and z is the correlated shock (the mixed component at the index of
the test in the correlation list) when the test participates in
correlation modeling and the independent fallback draw otherwise. -/
theorem mc_c6_sample_rate (cfg : Config) (T : List String) (L : ℕ → ℕ → ℝ)
    (d : Draw) (t : String) :
    (t ∈ cfg.rate_lognormal → 0 < cfg.base_rate_per_decade t →
      sampled_rate cfg T L d t =
        Real.exp (Real.log (cfg.base_rate_per_decade t) +
          Real.sqrt (Real.log (1 + (cfg.rate_uncertainty_cv t) ^ 2)) *
            ((z_map_lookup T L d.g t).getD (d.z_rate t)))) ∧
    (t ∉ cfg.rate_lognormal →
      sampled_rate cfg T L d t =
        max (cfg.base_rate_per_decade t +
          |cfg.base_rate_per_decade t| * cfg.rate_uncertainty_cv t *
            ((z_map_lookup T L d.g t).getD (d.z_rate t))) 0) ∧
    (t ∉ T → z_map_lookup T L d.g t = none) ∧
    (∀ i, T.indexOf? t = some i →
      z_map_lookup T L d.g t = some (∑ k in Finset.range (i + 1), L i k * d.g k)) := by
  refine ⟨?_, ?_, ?_, ?_⟩
  · intro hmem hmu
    have hcv : (1.0 : ℝ) + cfg.rate_uncertainty_cv t * cfg.rate_uncertainty_cv t =
        1 + (cfg.rate_uncertainty_cv t) ^ 2 := by
      rw [pow_two]
      norm_num
    simp only [sampled_rate, sample_rate, lognormal_sigma_from_cv, decide_eq_true hmem,
      if_pos, if_true, hcv]
  · intro hmem
    have hde : decide (t ∈ cfg.rate_lognormal) = false := decide_eq_false hmem
    simp only [sampled_rate, sample_rate, hde, Bool.false_eq_true, if_false]
    by_cases hneg : cfg.base_rate_per_decade t +
        |cfg.base_rate_per_decade t| * cfg.rate_uncertainty_cv t *
          ((z_map_lookup T L d.g t).getD (d.z_rate t)) < 0
    · rw [if_pos hneg]
      exact (max_eq_right hneg.le).symm
    · rw [if_neg hneg]
      exact (max_eq_left (not_lt.mp hneg)).symm
  · intro hmem
    unfold z_map_lookup
    rw [List.indexOf?_eq_none_iff.mpr ?_]
    · rfl
    · intro x hx
      simp only [beq_iff_eq]
      rintro rfl
      exact hmem hx
  · intro i hi
    simp [z_map_lookup, hi, sample_correlated_z]

/-- Witness for the C6 theorem: a lognormal test outside the correlation
list, with mu = 1/2, cv = 0 and zero draw, sampled at 1/2. -/
theorem mc_c6_sample_rate_witness :
    sampled_rate cfg_c9 [] (fun _ _ => 0) draw0 "VO2 max" =
      Real.exp (Real.log (cfg_c9.base_rate_per_decade "VO2 max") +
        Real.sqrt (Real.log (1 + (cfg_c9.rate_uncertainty_cv "VO2 max") ^ 2)) *
          ((z_map_lookup [] (fun _ _ => 0) draw0.g "VO2 max").getD (draw0.z_rate "VO2 max"))) :=
  (mc_c6_sample_rate cfg_c9 [] (fun _ _ => 0) draw0 "VO2 max").1
    (by simp [cfg_c9]) (by norm_num [cfg_c9])

/-- C7 counterexample: with configured base rate mu = -1 (zero
uncertainty, additive model) the sampled rate is clamped to 0, and the
post rate used by the projector is the configured post rate 1 unscaled,
not post*(r/mu) = 0: the claimed scaling identity fails when mu ≤ 0. -/
theorem mc_c7_counterexample :
    cfg_c7.post_rate_per_decade "Grip Strength" = some 1 ∧
    sampled_rate cfg_c7 [] (fun _ _ => 0) draw0 "Grip Strength" = 0 ∧
    sampled_rate_post cfg_c7 [] (fun _ _ => 0) draw0 "Grip Strength" = some 1 ∧
    sampled_rate_post cfg_c7 [] (fun _ _ => 0) draw0 "Grip Strength" ≠
      some ((1 : ℝ) * (sampled_rate cfg_c7 [] (fun _ _ => 0) draw0 "Grip Strength" /
        cfg_c7.base_rate_per_decade "Grip Strength")) := by
  have hr : sampled_rate cfg_c7 [] (fun _ _ => 0) draw0 "Grip Strength" = 0 := by
    norm_num [sampled_rate, sample_rate, cfg_c7, z_map_lookup, draw0]
  have hp : sampled_rate_post cfg_c7 [] (fun _ _ => 0) draw0 "Grip Strength" = some 1 := by
    norm_num [sampled_rate_post, cfg_c7]
  refine ⟨rfl, hr, hp, ?_⟩
  rw [hp, hr]
  norm_num [cfg_c7]

/-- C7 (amended): for a test with a configured post rate p, the
projector uses p scaled by sampled_rate/mu when the configured base rate
mu is strictly positive, and the unscaled p when mu ≤ 0 (the source
guards the ratio with mu > 0). -/
theorem mc_c7_post_rate_amended (cfg : Config) (T : List String) (L : ℕ → ℕ → ℝ)
    (d : Draw) (t : String) (p : ℝ) (hp : cfg.post_rate_per_decade t = some p) :
    (0 < cfg.base_rate_per_decade t →
      sampled_rate_post cfg T L d t =
        some (p * (sampled_rate cfg T L d t / cfg.base_rate_per_decade t))) ∧
    (cfg.base_rate_per_decade t ≤ 0 →
      sampled_rate_post cfg T L d t = some p) := by
  constructor
  · intro h
    simp [sampled_rate_post, hp, h]
  · intro h
    simp [sampled_rate_post, hp, not_lt.mpr h]

/-- Witness for the amended C7 theorem on the negative-rate
configuration: the mu ≤ 0 branch returns the unscaled post rate. -/
theorem mc_c7_post_rate_amended_witness :
    sampled_rate_post cfg_c7 [] (fun _ _ => 0) draw0 "Grip Strength" = some 1 :=
  (mc_c7_post_rate_amended cfg_c7 [] (fun _ _ => 0) draw0 "Grip Strength" 1 rfl).2
    (by norm_num [cfg_c7])

/-- C8 (amended): with zero measurement-noise coefficient of variation,
composing de-noise, a zero-length decline horizon, and re-noise returns
the baseline unchanged whenever the baseline is nonnegative, or when the
test allows negative values and has additive (non-lognormal) noise.  A
negative baseline of any other test is clamped to 0 (see the
counterexample). -/
theorem mc_c8_roundtrip_amended (t : String) (b : ℝ) (mcv : String → ℝ)
    (ln an : List String) (a rb : ℝ) (rp ac : Option ℝ) (hib ua : Bool) (z1 z2 : ℝ)
    (hc : mcv t = 0) (hb : 0 ≤ b ∨ (t ∈ an ∧ t ∉ ln)) :
    apply_measurement_noise t
      (apply_decline (infer_true_from_observed t b mcv ln an z1) a 0 rb rp ac hib ua)
      mcv ln an z2 = b := by
  rw [apply_decline_nonpos (le_refl 0)]
  rw [infer_true_cv0 hc, apply_measurement_noise_cv0 hc]
  rcases hb with hb | ⟨han, hln⟩
  · rw [cv0_clamp_of_nonneg _ _ _ hb, cv0_clamp_of_nonneg _ _ _ hb]
  · unfold cv0_clamp
    simp [hln, han]

/-- Witness for the amended C8 theorem: baseline 40 with zero noise
round-trips unchanged through de-noise, zero-horizon decline, re-noise. -/
theorem mc_c8_roundtrip_amended_witness :
    apply_measurement_noise "VO2 max"
      (apply_decline (infer_true_from_observed "VO2 max" 40 (fun _ => 0) [] [] 0)
        45 0 0.05 none none true false)
      (fun _ => 0) [] [] 0 = 40 :=
  mc_c8_roundtrip_amended "VO2 max" 40 (fun _ => 0) [] [] 45 0.05 none none true false 0 0
    rfl (Or.inl (by norm_num))

/-- C8 counterexample: a negative baseline (-1) of a test that does not
allow negative values is clamped to 0 by the de-noise step even with
zero noise, so the de-noise / zero-horizon / re-noise composition
returns 0, not the baseline. -/
theorem mc_c8_counterexample :
    apply_measurement_noise "X"
      (apply_decline (infer_true_from_observed "X" (-1) (fun _ => 0) [] [] 0)
        0 0 0 none none true false)
      (fun _ => 0) [] [] 0 = 0 ∧ (0 : ℝ) ≠ -1 := by
  constructor
  · norm_num [apply_measurement_noise, infer_true_from_observed, apply_decline]
  · norm_num

/-- C10: when the configured base rate mu of a lognormal-rate test is
strictly positive, the lognormal branch of sample_rate is total and its
value exp(ln mu + sigma*z) = mu * exp(sigma*z) is strictly positive.
(The source computes math.log(mu), which requires this unstated
precondition mu > 0; load_config performs no validation of it.) -/
theorem mc_c10_lognormal_rate_positive (t : String) (mu cv : ℝ) (z : Option ℝ)
    (zf : ℝ) (hmu : 0 < mu) :
    0 < sample_rate t mu cv true z zf ∧
      sample_rate t mu cv true z zf =
        mu * Real.exp (lognormal_sigma_from_cv cv * (z.getD zf)) := by
  constructor
  · unfold sample_rate
    simp only [if_true]
    exact Real.exp_pos _
  · unfold sample_rate
    simp only [if_true]
    rw [Real.exp_add, Real.exp_log hmu]

/-- Witness for the C10 theorem at mu = 1, cv = 0, zero draw. -/
theorem mc_c10_lognormal_rate_positive_witness :
    0 < sample_rate "VO2 max" 1 0 true none 0 ∧
      sample_rate "VO2 max" 1 0 true none 0 =
        1 * Real.exp (lognormal_sigma_from_cv 0 * ((none : Option ℝ).getD 0)) :=
  mc_c10_lognormal_rate_positive "VO2 max" 1 0 none 0 (by norm_num)

lemma lookup_map_self {f : String → ℝ} {l : List String} {t : String} (h : t ∈ l) :
    List.lookup t (l.map fun u => (u, f u)) = some (f t) := by
  induction l with
  | nil => cases h
  | cons u us ih =>
    by_cases hu : u = t
    · subst hu
      simp [List.lookup]
    · have hm : t ∈ us := by
        rcases List.mem_cons.mp h with h1 | h1
        · exact absurd h1.symm hu
        · exact h1
      have hne : (t == u) = false := beq_eq_false_iff_ne.mpr (Ne.symm hu)
      simp only [List.map_cons, List.lookup, hne]
      exact ih hm

/-- C1 counterexample: for a client with no baseline for Working Memory,
the simulation does not skip the test: it treats the missing observation
as 0.0 and computes year-5 mean -0.25 and year-10 mean -0.5 (absolute
decline from a zero baseline), and build_sheet_rows writes those numeric
means into the sheet (only the baseline cell is empty).  This refutes
the claim that no simulated mean is computed or written for the test. -/
theorem mc_c1_counterexample :
    client_c1.data "Working Memory" = none ∧
    build_sheet_rows client_c1
        (mean_rows cfg_c1 client_c1 [] (fun _ _ => 0) .decline (fun _ => draw0) 5)
        (mean_rows cfg_c1 client_c1 [] (fun _ _ => 0) .decline (fun _ => draw0) 10)
        cfg_c1.tests_order =
      [[Cell.str "Test", Cell.str "Baseline", Cell.str "Year 5 Mean", Cell.str "Year 10 Mean"],
        [Cell.str "Working Memory", Cell.empty, Cell.num (-0.25), Cell.num (-0.5)]] := by
  have h5 : sim_mean cfg_c1 client_c1 [] (fun _ _ => 0) .decline (fun _ => draw0) 5
      "Working Memory" = -0.25 := by
    norm_num [sim_mean, cfg_c1, simulated_obs, pre_noise_val, practice_adjust,
      practice_applies, practice0, true0, infer_true_from_observed, apply_measurement_noise,
      apply_decline, decline_split, apply_segment, sampled_rate, sample_rate,
      sampled_rate_post, z_map_lookup, Config.allow_negative_tests, client_c1,
      draw0, Finset.sum_range_one]
  have h10 : sim_mean cfg_c1 client_c1 [] (fun _ _ => 0) .decline (fun _ => draw0) 10
      "Working Memory" = -0.5 := by
    norm_num [sim_mean, cfg_c1, simulated_obs, pre_noise_val, practice_adjust,
      practice_applies, practice0, true0, infer_true_from_observed, apply_measurement_noise,
      apply_decline, decline_split, apply_segment, sampled_rate, sample_rate,
      sampled_rate_post, z_map_lookup, Config.allow_negative_tests, client_c1,
      draw0, Finset.sum_range_one]
  refine ⟨rfl, ?_⟩
  have hto : cfg_c1.tests_order = ["Working Memory"] := rfl
  have hcd : client_c1.data "Working Memory" = none := rfl
  rw [hto]
  simp only [build_sheet_rows, mean_rows, hto, List.map_cons, List.map_nil]
  simp [List.lookup, hcd, opt_cell, h5, h10]

/-- C1 (amended): for every test of tests_order with no observed
baseline for a client, the run does not fail and the test is not
skipped: the sheet contains a row for the test whose baseline cell is
empty but whose year-5 and year-10 cells hold the numeric simulated
means, and those means equal the ones obtained by giving the client an
explicit observed baseline of 0.0 for that test. -/
theorem mc_c1_amended (cfg : Config) (client : Client) (T : List String)
    (L : ℕ → ℕ → ℝ) (s : Scenario) (draws : ℕ → Draw) (t : String)
    (ht : t ∈ cfg.tests_order) (hmiss : client.data t = none) :
    [Cell.str t, Cell.empty,
        Cell.num (sim_mean cfg client T L s draws 5 t),
        Cell.num (sim_mean cfg client T L s draws 10 t)] ∈
      build_sheet_rows client (mean_rows cfg client T L s draws 5)
        (mean_rows cfg client T L s draws 10) cfg.tests_order ∧
    (∀ years,
      sim_mean cfg client T L s draws years t =
        sim_mean cfg ⟨client.age, fun u => if u = t then some 0 else client.data u⟩
          T L s draws years t) := by
  have hzero : ∀ years,
      sim_mean cfg client T L s draws years t =
        sim_mean cfg ⟨client.age, fun u => if u = t then some 0 else client.data u⟩
          T L s draws years t := by
    intro years
    unfold sim_mean
    congr 1
    apply Finset.sum_congr rfl
    intro i _
    unfold simulated_obs pre_noise_val true0
    rw [hmiss]
    simp
  refine ⟨?_, hzero⟩
  unfold build_sheet_rows
  apply List.mem_cons_of_mem
  apply List.mem_map.mpr
  refine ⟨t, ht, ?_⟩
  unfold mean_rows
  rw [hmiss, lookup_map_self ht, lookup_map_self ht]
  rfl

/-- Witness for the amended C1 theorem on the concrete configuration
with a fully missing-data client. -/
theorem mc_c1_amended_witness :
    ([Cell.str "Working Memory", Cell.empty,
        Cell.num (sim_mean cfg_c1 client_c1 [] (fun _ _ => 0) .decline (fun _ => draw0) 5
          "Working Memory"),
        Cell.num (sim_mean cfg_c1 client_c1 [] (fun _ _ => 0) .decline (fun _ => draw0) 10
          "Working Memory")] ∈
      build_sheet_rows client_c1
        (mean_rows cfg_c1 client_c1 [] (fun _ _ => 0) .decline (fun _ => draw0) 5)
        (mean_rows cfg_c1 client_c1 [] (fun _ _ => 0) .decline (fun _ => draw0) 10)
        cfg_c1.tests_order) ∧
    (∀ years,
      sim_mean cfg_c1 client_c1 [] (fun _ _ => 0) .decline (fun _ => draw0) years
          "Working Memory" =
        sim_mean cfg_c1
          ⟨client_c1.age, fun u => if u = "Working Memory" then some 0 else client_c1.data u⟩
          [] (fun _ _ => 0) .decline (fun _ => draw0) years "Working Memory") :=
  mc_c1_amended cfg_c1 client_c1 [] (fun _ _ => 0) .decline (fun _ => draw0)
    "Working Memory" (by simp [cfg_c1]) rfl

/-- C3: in the improvement scenario the per-draw pre-noise value is the
practice adjustment of apply_decline applied to the improvement-adjusted
de-noised baseline, with start age equal to the client age plus 1 and
horizon years - 1: the instantaneous improvement consumes year 1 of the
horizon.  Consequently, for a relative HigherIsBetter test with no
acceleration age, no practice bump and a nonnegative improved value, the
pre-noise value at horizon H is the improved value times
(1 - rate)^((H-1)/10): only H-1 years of aging are modeled. -/
theorem mc_c3_improvement_structure (cfg : Config) (client : Client) (T : List String)
    (L : ℕ → ℕ → ℝ) (d : Draw) (years : ℕ) (t : String) :
    pre_noise_val cfg client T L .improvement d years t =
      practice_adjust cfg years t
        (apply_decline
          (improve_adjust cfg t
            (sample_improvement_fraction t client.age cfg.improvement
              (d.u_imp years t) (d.z_imp years t))
            (true0 cfg client d t))
          (client.age.getD 0 + 1) ((years : ℝ) - 1)
          (sampled_rate cfg T L d t) (sampled_rate_post cfg T L d t)
          (cfg.accelerate_from_age t) (decide (t ∈ cfg.higher_is_better))
          (decide (t ∈ cfg.absolute_decline_tests))) ∧
    (cfg.accelerate_from_age t = none → t ∉ cfg.absolute_decline_tests →
      t ∈ cfg.higher_is_better → ¬ practice_applies cfg years t →
      0 ≤ improve_adjust cfg t
        (sample_improvement_fraction t client.age cfg.improvement
          (d.u_imp years t) (d.z_imp years t)) (true0 cfg client d t) →
      1 ≤ years →
      pre_noise_val cfg client T L .improvement d years t =
        improve_adjust cfg t
          (sample_improvement_fraction t client.age cfg.improvement
            (d.u_imp years t) (d.z_imp years t)) (true0 cfg client d t) *
          (1 - sampled_rate cfg T L d t) ^ (((years : ℝ) - 1) / 10)) := by
  constructor
  · rfl
  · intro hac habs hhib hpr hval hy
    rw [pre_noise_val]
    show practice_adjust cfg years t (apply_decline _ _ _ _ _ _ _ _) = _
    rw [practice_adjust_not _ hpr, hac, decide_eq_true hhib, decide_eq_false habs]
    rcases eq_or_lt_of_le hy with hy1 | hy1
    · have hzero : ((years : ℝ) - 1) = 0 := by
        rw [← hy1]
        norm_num
      rw [apply_decline_nonpos (le_of_eq hzero), hzero]
      norm_num
    · have hpos : (0 : ℝ) < (years : ℝ) - 1 := by
        have : (1 : ℝ) < (years : ℝ) := by exact_mod_cast hy1
        linarith
      rw [apply_decline_pos hpos]
      rw [show decline_split (client.age.getD 0 + 1) ((years : ℝ) - 1) none =
        (((years : ℝ) - 1), 0) from rfl]
      rw [apply_segment_nonpos _ _ _ _ (le_refl (0 : ℝ))]
      show apply_segment false true (sampled_rate cfg T L d t) _ ((years : ℝ) - 1) = _
      rw [seg_rel_hi (sampled_rate cfg T L d t) hpos hval]

/-- Witness for the C3 theorem at the concrete improvement scenario. -/
theorem mc_c3_improvement_structure_witness :
    pre_noise_val cfg_w3 client_w3 [] (fun _ _ => 0) .improvement draw0 5 "Grip Strength" =
      improve_adjust cfg_w3 "Grip Strength"
        (sample_improvement_fraction "Grip Strength" client_w3.age cfg_w3.improvement
          (draw0.u_imp 5 "Grip Strength") (draw0.z_imp 5 "Grip Strength"))
        (true0 cfg_w3 client_w3 draw0 "Grip Strength") *
        (1 - sampled_rate cfg_w3 [] (fun _ _ => 0) draw0 "Grip Strength") ^
          ((((5 : ℕ) : ℝ) - 1) / 10) :=
  (mc_c3_improvement_structure cfg_w3 client_w3 [] (fun _ _ => 0) draw0 5 "Grip Strength").2
    rfl (by simp [cfg_w3]) (by simp [cfg_w3])
    (by simp [practice_applies, cfg_w3, practice0])
    (by
      norm_num [improve_adjust, cfg_w3, sample_improvement_fraction, uniform_draw,
        true0, infer_true_from_observed, client_w3, draw0, Config.allow_negative_tests]
      rw [if_neg (by decide : ¬ ("Grip Strength" = "VO2 max")),
        if_neg (by decide : ¬ ("Grip Strength" = "HOMA-IR"))]
      norm_num)
    (by norm_num)

/-
Helper lemmas: the retry ladder of build_correlation.
-/

lemma try_eps_nil (A : ℕ → ℕ → ℝ) (n : ℕ) : try_eps A n [] = none := rfl

lemma try_eps_cons (A : ℕ → ℕ → ℝ) (n : ℕ) (e : ℝ) (l : List ℝ) :
    try_eps A n (e :: l) =
      if chol_ok (inflate_diag e A) n then some (chol (inflate_diag e A))
      else try_eps A n l := rfl

lemma try_eps_eq_none_iff (A : ℕ → ℕ → ℝ) (n : ℕ) (l : List ℝ) :
    try_eps A n l = none ↔ ∀ e ∈ l, ¬ chol_ok (inflate_diag e A) n := by
  induction l with
  | nil => simp [try_eps_nil]
  | cons e l ih =>
    rw [try_eps_cons]
    by_cases h : chol_ok (inflate_diag e A) n
    · simp [h]
    · simp [h, ih]

lemma try_eps_eq_some_iff (A : ℕ → ℕ → ℝ) (n : ℕ) (l : List ℝ) (L : ℕ → ℕ → ℝ) :
    try_eps A n l = some L ↔
      ∃ l1 e l2, l = l1 ++ e :: l2 ∧
        (∀ e2 ∈ l1, ¬ chol_ok (inflate_diag e2 A) n) ∧
        chol_ok (inflate_diag e A) n ∧ L = chol (inflate_diag e A) := by
  induction l with
  | nil =>
    constructor
    · intro h
      rw [try_eps_nil] at h
      cases h
    · rintro ⟨l1, e, l2, heq, -⟩
      exact absurd heq (by simp)
  | cons a l ih =>
    rw [try_eps_cons]
    by_cases h : chol_ok (inflate_diag a A) n
    · rw [if_pos h]
      constructor
      · intro hL
        exact ⟨[], a, l, rfl, by simp, h, (Option.some.inj hL).symm⟩
      · rintro ⟨l1, e, l2, heq, hall, hok, hLe⟩
        cases l1 with
        | nil =>
          simp only [List.nil_append, List.cons.injEq] at heq
          rw [hLe, ← heq.1]
        | cons b l1 =>
          simp only [List.cons_append, List.cons.injEq] at heq
          exact absurd h (heq.1 ▸ hall b (List.mem_cons_self b l1))
    · rw [if_neg h, ih]
      constructor
      · rintro ⟨l1, e, l2, heq, hall, hok, hLe⟩
        refine ⟨a :: l1, e, l2, by rw [heq]; rfl, ?_, hok, hLe⟩
        intro e2 he2
        rcases List.mem_cons.mp he2 with rfl | hmem
        · exact h
        · exact hall e2 hmem
      · rintro ⟨l1, e, l2, heq, hall, hok, hLe⟩
        cases l1 with
        | nil =>
          simp only [List.nil_append, List.cons.injEq] at heq
          exact absurd (heq.1 ▸ hok) h
        | cons b l1 =>
          simp only [List.cons_append, List.cons.injEq] at heq
          refine ⟨l1, e, l2, heq.2, ?_, hok, hLe⟩
          intro e2 he2
          exact hall e2 (List.mem_cons_of_mem b he2)

/-- C4: the correlation engine attempts Cholesky factorization with the
raw matrix first and then with diagonal inflation epsilons 1e-8, 1e-6,
1e-5, 1e-4, 1e-3, 1e-2 in that order; inflation adds epsilon only to
diagonal entries and never changes off-diagonal entries; the engine
fails (the fatal error) if and only if the factorization success
condition (every diagonal pivot > 0) fails at the raw matrix and at
every epsilon; and a returned factor is the Cholesky factor of the
first matrix in ladder order whose factorization succeeds. -/
theorem mc_c4_eps_ladder (cs : CorrSpec) :
    eps_ladder = [0.0, 1e-8, 1e-6, 1e-5, 1e-4, 1e-3, 1e-2] ∧
    (build_correlation cs = none ↔
      ∀ e ∈ eps_ladder,
        ¬ chol_ok (inflate_diag e (corr_matrix cs.tests cs.pairs)) cs.tests.length) ∧
    (∀ ts L, build_correlation cs = some (ts, L) →
      ts = cs.tests ∧
      ∃ l1 e l2, eps_ladder = l1 ++ e :: l2 ∧
        (∀ e2 ∈ l1,
          ¬ chol_ok (inflate_diag e2 (corr_matrix cs.tests cs.pairs)) cs.tests.length) ∧
        chol_ok (inflate_diag e (corr_matrix cs.tests cs.pairs)) cs.tests.length ∧
        L = chol (inflate_diag e (corr_matrix cs.tests cs.pairs))) ∧
    (∀ (e : ℝ) (m : ℕ → ℕ → ℝ) (i j : ℕ), i ≠ j → inflate_diag e m i j = m i j) := by
  refine ⟨rfl, ?_, ?_, ?_⟩
  · unfold build_correlation
    rw [Option.map_eq_none']
    exact try_eps_eq_none_iff _ _ _
  · intro ts L hL
    unfold build_correlation at hL
    cases htry : try_eps (corr_matrix cs.tests cs.pairs) cs.tests.length eps_ladder with
    | none => rw [htry] at hL; simp at hL
    | some L2 =>
      rw [htry] at hL
      simp only [Option.map_some', Option.some.injEq, Prod.mk.injEq] at hL
      obtain ⟨hts, hL2⟩ := hL
      obtain ⟨l1, e, l2, heq, hall, hok, hLe⟩ := (try_eps_eq_some_iff _ _ _ _).mp htry
      exact ⟨hts.symm, l1, e, l2, heq, hall, hok, hL2 ▸ hLe⟩
  · intro e m i j h
    simp [inflate_diag, h]

/-
Helper lemmas: exact reconstruction of a symmetric matrix from its
Cholesky factor when every pivot is positive.
-/

lemma chol_diag_pos {A : ℕ → ℕ → ℝ} {n i : ℕ} (hok : chol_ok A n) (hi : i < n) :
    0 < chol A i i := by
  rw [chol_diag]
  exact Real.sqrt_pos.mpr (hok i hi)

lemma chol_diag_mul_self {A : ℕ → ℕ → ℝ} {i : ℕ} (h : 0 ≤ chol_pivot A i) :
    chol A i i * chol A i i = chol_pivot A i := by
  rw [chol_diag]
  exact Real.mul_self_sqrt h

lemma chol_reconstruct_le (A : ℕ → ℕ → ℝ) (n : ℕ) (hok : chol_ok A n)
    {i j : ℕ} (hi : i < n) (hj : j ≤ i) :
    ∑ k in Finset.range n, chol A i k * chol A j k = A i j := by
  have hjn : j < n := lt_of_le_of_lt hj hi
  have htrunc : ∑ k in Finset.range n, chol A i k * chol A j k
      = ∑ k in Finset.range (j + 1), chol A i k * chol A j k := by
    refine (Finset.sum_subset (Finset.range_subset.mpr hjn) ?_).symm
    intro k hk hk2
    simp only [Finset.mem_range] at hk hk2
    have hjk : j < k := by omega
    rw [chol_above A hjk, mul_zero]
  rw [htrunc, Finset.sum_range_succ]
  rcases eq_or_lt_of_le hj with rfl | hlt
  · rw [chol_diag_mul_self (hok j hjn).le]
    have hsq : ∑ k in Finset.range j, chol A j k * chol A j k
        = ∑ k in Finset.range j, (chol A j k) ^ 2 := by
      refine Finset.sum_congr rfl ?_
      intro k _
      rw [pow_two]
    rw [hsq]
    unfold chol_pivot
    ring
  · rw [chol_below A hlt]
    have hLjj : chol A j j ≠ 0 := ne_of_gt (chol_diag_pos hok hjn)
    rw [div_mul_cancel₀ _ hLjj]
    ring

lemma chol_reconstruct (A : ℕ → ℕ → ℝ) (n : ℕ) (hsym : ∀ a b, A a b = A b a)
    (hok : chol_ok A n) {i j : ℕ} (hi : i < n) (hj : j < n) :
    ∑ k in Finset.range n, chol A i k * chol A j k = A i j := by
  rcases le_total j i with h | h
  · exact chol_reconstruct_le A n hok hi h
  · rw [hsym i j, ← chol_reconstruct_le A n hok hj h]
    refine Finset.sum_congr rfl ?_
    intro k _
    ring

/-
Helper lemmas: symmetry of the built correlation matrix.
-/

lemma set_pair_symm {m : ℕ → ℕ → ℝ} (hm : ∀ a b, m a b = m b a) (i j : ℕ) (v : ℝ) :
    ∀ a b, set_pair m i j v a b = set_pair m i j v b a := by
  intro a b
  unfold set_pair
  by_cases h : (a = i ∧ b = j) ∨ (a = j ∧ b = i)
  · rw [if_pos h, if_pos (by tauto)]
  · rw [if_neg h, if_neg (by tauto), hm]

lemma foldl_set_pair_symm (tests : List String) :
    ∀ (l : List (String × String × ℝ)) (m : ℕ → ℕ → ℝ), (∀ a b, m a b = m b a) →
      ∀ a b,
        (l.foldl (fun m p => set_pair m (tests.indexOf p.1) (tests.indexOf p.2.1) p.2.2) m) a b =
        (l.foldl (fun m p => set_pair m (tests.indexOf p.1) (tests.indexOf p.2.1) p.2.2) m) b a
  | [], m, hm => hm
  | p :: l, m, hm => by
    simp only [List.foldl_cons]
    exact foldl_set_pair_symm tests l _ (set_pair_symm hm _ _ _)

lemma corr_matrix_symm (tests : List String) (pairs : List (String × String × ℝ)) :
    ∀ a b, corr_matrix tests pairs a b = corr_matrix tests pairs b a := by
  unfold corr_matrix
  refine foldl_set_pair_symm tests pairs _ ?_
  intro a b
  by_cases h : a = b
  · rw [h]
  · rw [if_neg h, if_neg (Ne.symm h)]

lemma inflate_diag_symm {m : ℕ → ℕ → ℝ} (hm : ∀ a b, m a b = m b a) (e : ℝ) :
    ∀ a b, inflate_diag e m a b = inflate_diag e m b a := by
  intro a b
  unfold inflate_diag
  by_cases h : a = b
  · rw [h]
  · rw [if_neg h, if_neg (Ne.symm h), hm]

/-- C5: whenever the correlation engine returns a factor L for a
specification whose pair correlations all have absolute value < 1, there
is an epsilon in the retry ladder such that the Cholesky success
condition holds for the epsilon-inflated correlation matrix, the
inflated matrix is symmetric (the pair correlations are mirrored), and
L·Lᵗ agrees entrywise with the inflated matrix within 1e-6 (the
reconstruction is in fact exact over the reals). -/
theorem mc_c5_factor_reconstructs (cs : CorrSpec) (ts : List String) (L : ℕ → ℕ → ℝ)
    (hpairs : ∀ p ∈ cs.pairs, |p.2.2| < 1)
    (hL : build_correlation cs = some (ts, L)) :
    ∃ e ∈ eps_ladder,
      chol_ok (inflate_diag e (corr_matrix cs.tests cs.pairs)) cs.tests.length ∧
      (∀ a b, inflate_diag e (corr_matrix cs.tests cs.pairs) a b =
        inflate_diag e (corr_matrix cs.tests cs.pairs) b a) ∧
      ∀ i < cs.tests.length, ∀ j < cs.tests.length,
        |(∑ k in Finset.range cs.tests.length, L i k * L j k) -
          inflate_diag e (corr_matrix cs.tests cs.pairs) i j| ≤ 1e-6 := by
  unfold build_correlation at hL
  cases htry : try_eps (corr_matrix cs.tests cs.pairs) cs.tests.length eps_ladder with
  | none => rw [htry] at hL; simp at hL
  | some L2 =>
    rw [htry] at hL
    simp only [Option.map_some', Option.some.injEq, Prod.mk.injEq] at hL
    obtain ⟨hts, hL2⟩ := hL
    obtain ⟨l1, e, l2, heq, hall, hok, hLe⟩ := (try_eps_eq_some_iff _ _ _ _).mp htry
    have hsym := inflate_diag_symm (corr_matrix_symm cs.tests cs.pairs) e
    refine ⟨e, ?_, hok, hsym, ?_⟩
    · rw [heq]
      exact List.mem_append_right _ (List.mem_cons_self _ _)
    · intro i hi j hj
      have hrec := chol_reconstruct _ _ hsym hok hi hj
      rw [← hL2, hLe, hrec, sub_self, abs_zero]
      norm_num

lemma cs_w5_matrix : ∀ i j, inflate_diag 0.0 (corr_matrix cs_w5.tests cs_w5.pairs) i j =
    if i = j then 1 else 0 := by
  intro i j
  by_cases h : i = j
  · rw [if_pos h]
    simp only [inflate_diag, corr_matrix, cs_w5, List.foldl_nil, if_pos h]
    norm_num
  · rw [if_neg h]
    simp [inflate_diag, corr_matrix, cs_w5, h]

lemma cs_w5_chol_below : chol (inflate_diag 0.0 (corr_matrix cs_w5.tests cs_w5.pairs)) 1 0 = 0 := by
  rw [chol_below _ (by omega : (0 : ℕ) < 1)]
  simp [cs_w5_matrix 1 0]

lemma cs_w5_chol_ok :
    chol_ok (inflate_diag 0.0 (corr_matrix cs_w5.tests cs_w5.pairs)) cs_w5.tests.length := by
  intro i hi
  have h2 : cs_w5.tests.length = 2 := rfl
  rw [h2] at hi
  interval_cases i
  · unfold chol_pivot
    rw [Finset.range_zero, Finset.sum_empty, cs_w5_matrix 0 0]
    norm_num
  · unfold chol_pivot
    rw [Finset.sum_range_one, cs_w5_chol_below, cs_w5_matrix 1 1]
    norm_num

lemma cs_w5_build : build_correlation cs_w5 =
    some (cs_w5.tests, chol (inflate_diag 0.0 (corr_matrix cs_w5.tests cs_w5.pairs))) := by
  unfold build_correlation
  have h : try_eps (corr_matrix cs_w5.tests cs_w5.pairs) cs_w5.tests.length eps_ladder =
      some (chol (inflate_diag 0.0 (corr_matrix cs_w5.tests cs_w5.pairs))) := by
    show try_eps _ _ ((0.0 : ℝ) :: [1e-8, 1e-6, 1e-5, 1e-4, 1e-3, 1e-2]) = _
    rw [try_eps_cons, if_pos cs_w5_chol_ok]
  rw [h]
  rfl

/-- Witness for the C4 theorem: on the two-test identity specification,
the engine succeeds at the raw matrix (epsilon 0), and the failure
condition is equivalent to failure at every ladder epsilon. -/
theorem mc_c4_eps_ladder_witness :
    build_correlation cs_w5 =
      some (cs_w5.tests, chol (inflate_diag 0.0 (corr_matrix cs_w5.tests cs_w5.pairs))) ∧
    cs_w5.tests = cs_w5.tests ∧
    (∃ l1 e l2, eps_ladder = l1 ++ e :: l2 ∧
      (∀ e2 ∈ l1,
        ¬ chol_ok (inflate_diag e2 (corr_matrix cs_w5.tests cs_w5.pairs)) cs_w5.tests.length) ∧
      chol_ok (inflate_diag e (corr_matrix cs_w5.tests cs_w5.pairs)) cs_w5.tests.length ∧
      chol (inflate_diag 0.0 (corr_matrix cs_w5.tests cs_w5.pairs)) =
        chol (inflate_diag e (corr_matrix cs_w5.tests cs_w5.pairs))) := by
  refine ⟨cs_w5_build, ?_⟩
  exact (mc_c4_eps_ladder cs_w5).2.2.1 cs_w5.tests
    (chol (inflate_diag 0.0 (corr_matrix cs_w5.tests cs_w5.pairs))) cs_w5_build

/-- Witness for the C5 theorem on the two-test identity specification. -/
theorem mc_c5_factor_reconstructs_witness :
    ∃ e ∈ eps_ladder,
      chol_ok (inflate_diag e (corr_matrix cs_w5.tests cs_w5.pairs)) cs_w5.tests.length ∧
      (∀ a b, inflate_diag e (corr_matrix cs_w5.tests cs_w5.pairs) a b =
        inflate_diag e (corr_matrix cs_w5.tests cs_w5.pairs) b a) ∧
      ∀ i < cs_w5.tests.length, ∀ j < cs_w5.tests.length,
        |(∑ k in Finset.range cs_w5.tests.length,
            chol (inflate_diag 0.0 (corr_matrix cs_w5.tests cs_w5.pairs)) i k *
              chol (inflate_diag 0.0 (corr_matrix cs_w5.tests cs_w5.pairs)) j k) -
          inflate_diag e (corr_matrix cs_w5.tests cs_w5.pairs) i j| ≤ 1e-6 :=
  mc_c5_factor_reconstructs cs_w5 cs_w5.tests
    (chol (inflate_diag 0.0 (corr_matrix cs_w5.tests cs_w5.pairs)))
    (by simp [cs_w5]) cs_w5_build
